import Mathlib

/-!
# oneterm session core: a shallow embedding

Embedding of the interactive session core of oneterm
(`internal/api/controller/connect/utils.go`, `internal/connector/handlers.go`).

Go strings and `[]byte` values are byte sequences; they are embedded as lists
of byte values (`ByteString`).  `len(s)` of a Go string is its length in bytes,
which is `List.length` here.
-/

namespace Oneterm

/-! ## Byte strings -/

/-- A Go `string` / `[]byte`: a sequence of byte values. -/
abbrev ByteString := List Nat

/-- The bytes of a string literal (its UTF-8 encoding, as Go stores it). -/
def str (s : String) : ByteString :=
  (s.toList.flatMap String.utf8EncodeChar).map UInt8.toNat

/-- Digit loop of `fmt.Sprintf("%d", n)` for `n ≥ 0`: the least significant digit is
produced first and pushed in front of the digits already produced. -/
def fmtDigits : Nat → Nat → ByteString → ByteString
  | 0, _, acc => acc
  | fuel + 1, n, acc =>
    if n < 10 then (48 + n) :: acc
    else fmtDigits fuel (n / 10) ((48 + n % 10) :: acc)

/-- The embedding of `fmt.Sprintf("%d", n)` for a non-negative `n` (here always a `len`). -/
def formatDecimal (n : Nat) : ByteString := fmtDigits (n + 1) n []

/-- The decimal numeral of `n` in the mathematical sense, most significant digit first,
as ASCII digits: `"0"` for zero and the base-10 digits of `n` otherwise. -/
def decimalNumeral (n : Nat) : ByteString :=
  if n = 0 then [48] else (Nat.digits 10 n).reverse.map (fun d => 48 + d)

/-! ## Guacamole instruction (`utils.go`, lines 212-234) -/

/-- The Go type `Instruction`. -/
structure Instruction where
  opcode : ByteString
  args : List ByteString
  deriving DecidableEq, Repr

/-- The Go function `NewInstruction(opcode, args...)`. -/
def NewInstruction (opcode : ByteString) (args : List ByteString) : Instruction :=
  { opcode := opcode, args := args }

/-- The Go method `(*Instruction).Bytes`: the loop appends `"," + Sprintf("%d", len(arg)) + "." + arg`
to `result` for each argument, then `";"` is appended. -/
def Instruction.Bytes (instr : Instruction) : ByteString :=
  let result := instr.args.foldl
    (fun result arg => result ++ ([44] ++ formatDecimal arg.length ++ [46] ++ arg)) instr.opcode
  result ++ [59]

/-- The wire form of one argument: a comma, the decimal byte length, a dot, the argument. -/
def encodeArg (arg : ByteString) : ByteString :=
  str "," ++ decimalNumeral arg.length ++ str "." ++ arg

/-! ## Errors -/

/-- Error codes of package `pkg/errors` that the session core uses. -/
inductive ErrCode where
  | ErrInvalidArgument
  | ErrUnauthorized
  | ErrInvalidSessionId
  | ErrConnectServer
  | ErrIdleTimeout
  | ErrAccessTime
  | ErrAdminClose
  | ErrNoPerm
  | ErrInternal
  deriving DecidableEq, Repr

/-- A Go `error` value.  `api` is a `*myErrors.ApiError` whose `Data` map holds one text entry
(or none, with an empty key), `apiWrap` one whose `Data` map holds `key: cause` for another
error, `plain` is any error that is not an `*ApiError`. -/
inductive GoError where
  | plain (text : ByteString)
  | api (Code : ErrCode) (key : String) (value : ByteString)
  | apiWrap (Code : ErrCode) (key : String) (cause : GoError)
  deriving DecidableEq, Repr

/-- The type assertion `err.(*myErrors.ApiError)`: whether it succeeds. -/
def GoError.isApiError : GoError → Bool
  | .plain _ => false
  | .api _ _ _ => true
  | .apiWrap _ _ _ => true

/-- The code of an `*ApiError` (none for other errors). -/
def GoError.code : GoError → Option ErrCode
  | .plain _ => none
  | .api c _ _ => some c
  | .apiWrap c _ _ => some c

/-- The message renderers of package `pkg/errors`, which live outside the embedded files:
`err.Error()`, `(*ApiError).MessageWithCtx(ctx)`, `(*ApiError).MessageBase64(ctx)` and
`cast.ToString(myErrors.ErrAdminClose)`. -/
structure Messages where
  Error : GoError → ByteString
  MessageWithCtx : GoError → ByteString
  MessageBase64 : GoError → ByteString
  adminCloseCode : ByteString

/-! ## Session data (`gsession.Session`, `gsession.SessionChans`) -/

/-- The constant `model.SESSIONTYPE_WEB`. -/
def SESSIONTYPE_WEB : Int := 1

/-- The constant `model.SESSIONTYPE_CLIENT`. -/
def SESSIONTYPE_CLIENT : Int := 2

/-- The constant `websocket.TextMessage` of gorilla/websocket. -/
def TextMessage : Int := 1

/-- A `*websocket.Conn` seen from the writing side: the payloads of the text frames handed to
`WriteMessage`, oldest first, and the error `WriteMessage` returns (none while the
connection is healthy). -/
structure WsConn where
  frames : List ByteString := []
  writeErr : Option GoError := none
  deriving DecidableEq, Repr

/-- The Go call `ws.WriteMessage(websocket.TextMessage, data)`. -/
def WsConn.WriteMessage (ws : WsConn) (data : ByteString) : Option GoError × WsConn :=
  (ws.writeErr, { ws with frames := ws.frames ++ [data] })

/-- A byte sink with a `Write` method (`sess.CliRw`, the pipe writer `chs.Win`, the recorder
`sess.SshRecoder`): the arguments of the `Write` calls, oldest first, and the error `Write`
returns. -/
structure Sink where
  writes : List ByteString := []
  writeErr : Option GoError := none
  deriving DecidableEq, Repr

/-- The Go call `w.Write(p)` on a sink. -/
def Sink.Write (w : Sink) (p : ByteString) : Option GoError × Sink :=
  (w.writeErr, { w with writes := w.writes ++ [p] })

/-- The Go type `ssh.Window` (gliderlabs/ssh), its two dimensions. -/
structure Window where
  Width : Int
  Height : Int
  deriving DecidableEq, Repr

/-- A channel that is only ever closed (`AwayChan`): how many times `close` ran on it. -/
structure SignalChan where
  closes : Nat := 0
  deriving DecidableEq, Repr

/-- The Go builtin `close(ch)`. -/
def SignalChan.close (ch : SignalChan) : SignalChan := { ch with closes := ch.closes + 1 }

/-- The Go type `gsession.SessionChans`: `OutBuf` is the content of the buffer, `InChan`,
`WindowChan` and `ErrChan` hold the values sent on the channel, oldest first, `Win` is the
writing end of the pipe to the target. -/
structure SessionChans where
  OutBuf : ByteString := []
  InChan : List ByteString := []
  WindowChan : List Window := []
  ErrChan : List (Option GoError) := []
  Win : Sink := {}
  AwayChan : SignalChan := {}
  deriving DecidableEq, Repr

/-- The Go function `gsession.NewSessionChans()`. -/
def NewSessionChans : SessionChans := {}

/-- A value stored in the observer map `sess.Monitors` (a `sync.Map` of `any`):
a `*websocket.Conn` or a `*gsession.SessionChans`. -/
inductive MonitorSink where
  | ws (conn : WsConn)
  | chans (cs : SessionChans)
  deriving DecidableEq, Repr

/-- The permission set `model.AuthPermissions`. -/
structure AuthPermissions where
  Connect : Bool := false
  FileUpload : Bool := false
  FileDownload : Bool := false
  Copy : Bool := false
  Paste : Bool := false
  Share : Bool := false
  deriving DecidableEq, Repr

/-- One call made on the terminal parser `sess.SshParser`. -/
inductive ParserCall where
  | AddInput (p : ByteString)
  | AddOutput (p : ByteString)
  deriving DecidableEq, Repr

/-- The Go type `gsession.Session`, with the fields the session core reads and writes.
`guacd` is the value of the method `IsGuacd()`, `Once` is whether `sess.Once` has fired,
`GctxDone` whether the context `sess.Gctx` is done, `idleResets` counts the calls of `SetIdle()`, `SshParser` lists the calls made on the parser,
oldest first. -/
structure Session where
  SessionType : Int := 0
  SessionId : ByteString := []
  Protocol : ByteString := []
  guacd : Bool := false
  Status : Int := 0
  AssetId : Int := 0
  AccountId : Int := 0
  ShareId : Int := 0
  ShareEnd : Int := 0
  ClientIp : ByteString := []
  Ws : Option WsConn := none
  CliRw : Sink := {}
  SshRecoder : Option Sink := none
  SshParser : List ParserCall := []
  Permissions : Option AuthPermissions := none
  Monitors : List (ByteString × MonitorSink) := []
  Chans : SessionChans := {}
  Once : Bool := false
  GctxDone : Bool := false
  idleResets : Nat := 0
  deriving DecidableEq, Repr

/-- The Go method `sess.IsGuacd()`. -/
def Session.IsGuacd (sess : Session) : Bool := sess.guacd

/-- The Go method `sess.SetIdle()`: the idle timer is reset. -/
def Session.SetIdle (sess : Session) : Session := { sess with idleResets := sess.idleResets + 1 }

/-! ## Output path (`utils.go`, lines 48-56 and 144-173) -/

/-- The Go function `WriteToMonitors`: the `Range` callback appends `out` to the `OutBuf` of
every value that is a `*gsession.SessionChans` and leaves every other value alone. -/
def WriteToMonitors (monitors : List (ByteString × MonitorSink)) (out : ByteString) :
    List (ByteString × MonitorSink) :=
  monitors.map fun kv =>
    match kv.2 with
    | .chans cs => (kv.1, .chans { cs with OutBuf := cs.OutBuf ++ out })
    | .ws conn => (kv.1, .ws conn)

/-- Lines 157-163 of `Write`: `out` goes to the websocket of a web session (an empty `out`
only for a guacd session), or to `CliRw` of a client session when it is not empty. -/
def Write.toClient (sess : Session) (out : ByteString) : Option GoError × Session :=
  if sess.SessionType = SESSIONTYPE_WEB ∧ sess.Ws ≠ none then
    if out.length > 0 ∨ sess.IsGuacd = true then
      match sess.Ws with
      | some ws => ((ws.WriteMessage out).1, { sess with Ws := some (ws.WriteMessage out).2 })
      | none => (none, sess)
    else (none, sess)
  else if sess.SessionType = SESSIONTYPE_CLIENT ∧ out.length > 0 then
    ((sess.CliRw.Write out).1, { sess with CliRw := (sess.CliRw.Write out).2 })
  else (none, sess)

/-- Lines 165-167 of `Write`: a non-empty `out` of a terminal session goes to the recorder. -/
def Write.toRecorder (sess : Session) (out : ByteString) : Session :=
  match sess.SshRecoder with
  | some rec =>
    if out.length > 0 ∧ sess.IsGuacd = false then
      { sess with SshRecoder := some (rec.Write out).2 }
    else sess
  | none => sess

/-- The Go function `Write`: flush `OutBuf` to the client transport, the recorder and the
monitors, then reset it.  The result is the returned `err` and the session afterwards. -/
def Write (sess : Session) : Option GoError × Session :=
  let out := sess.Chans.OutBuf
  let r := Write.toClient sess out
  let sess := Write.toRecorder r.2 out
  let sess := { sess with Monitors := WriteToMonitors sess.Monitors out }
  (r.1, { sess with Chans := { sess.Chans with OutBuf := [] } })

/-- The Go function `WriteErrMsg`: `fmt.Sprintf("\r\n \033[31m %s \x1b[0m", msg)` is appended
to `OutBuf`, then `Write` flushes. -/
def WriteErrMsg (sess : Session) (msg : ByteString) : Session :=
  let out := str "\r\n \x1b[31m " ++ msg ++ str " \x1b[0m"
  let sess := { sess with Chans := { sess.Chans with OutBuf := sess.Chans.OutBuf ++ out } }
  (Write sess).2

/-! ## Session teardown (`utils.go`, lines 117-142) -/

/-- The Go function `HandleError(ctx, sess, err, ws, chs)`.  The body reports `err` (an
`error` instruction on `ws` for a guacd session, a red line on the session's output path
otherwise); the deferred function then closes one `AwayChan` through `sess.Once`: the one of
`chs` when `chs` is not nil, the one of `sess.Chans` otherwise.  A `Session` value always
carries its channel bundle, so the guard `sess.Chans == nil` has no counterpart.
The result is the session, `ws` and `chs` afterwards. -/
def HandleError (m : Messages) (sess : Option Session) (err : Option GoError)
    (ws : Option WsConn) (chs : Option SessionChans) :
    Option Session × Option WsConn × Option SessionChans :=
  let (sess, ws) :=
    match err, sess with
    | none, _ => (sess, ws)
    | some _, none => (sess, ws)
    | some e, some s =>
      match s.IsGuacd, ws with
      | true, some w =>
        let text := if e.isApiError then m.MessageBase64 e else m.Error e
        (some s, some (w.WriteMessage (NewInstruction (str "error") [text, m.adminCloseCode]).Bytes).2)
      | _, _ =>
        (some (WriteErrMsg s (if e.isApiError then m.MessageWithCtx e else m.Error e)), ws)
  match sess with
  | none => (none, ws, chs)
  | some s =>
    if s.Once then (some s, ws, chs)
    else
      match chs with
      | some c => (some { s with Once := true }, ws, some { c with AwayChan := c.AwayChan.close })
      | none =>
        (some { s with Once := true, Chans := { s.Chans with AwayChan := s.Chans.AwayChan.close } },
          ws, none)

/-- A handler leaving through its deferred `HandleError`: the session's own `Connect` handler
(`HandleError(ctx, sess, err, ws, nil)` with `ws` being `sess.Ws`), or the `ConnectMonitor`
handler number `i` attached to the session (`HandleError(ctx, sess, err, ws, chs)` with the
monitor's own websocket and its own `chs := gsession.NewSessionChans()`). -/
inductive HandlerExit where
  | connect (err : Option GoError)
  | monitor (i : Nat) (err : Option GoError)
  deriving DecidableEq, Repr

/-- A session together with the monitor handlers attached to it: for each handler its
websocket and its channel bundle. -/
structure Attached where
  sess : Session
  monitors : List (WsConn × SessionChans)
  deriving DecidableEq, Repr

/-- One handler leaves: its deferred `HandleError` runs on the shared session. -/
def Attached.exit (m : Messages) (a : Attached) : HandlerExit → Attached
  | .connect err =>
    match HandleError m (some a.sess) err a.sess.Ws none with
    | (some s, ws, _) =>
      { a with sess := if a.sess.IsGuacd then { s with Ws := ws } else s }
    | (none, _, _) => a
  | .monitor i err =>
    match a.monitors[i]? with
    | none => a
    | some (ws, chs) =>
      match HandleError m (some a.sess) err (some ws) (some chs) with
      | (some s, some ws, some chs) => { sess := s, monitors := a.monitors.set i (ws, chs) }
      | _ => a

/-- The handlers leave one after the other in the given order. -/
def Attached.exits (m : Messages) (a : Attached) (order : List HandlerExit) : Attached :=
  order.foldl (Attached.exit m) a

/-! ## Reader (`utils.go`, lines 175-210 and 236-239) -/

/-- What the blocking read of the client transport returns: `(t, msg, err)` of
`sess.Ws.ReadMessage()`, or `(p, err)` of `sess.CliRw.Read()` with `t` unused. -/
structure ReadEvent where
  t : Int := TextMessage
  msg : ByteString := []
  err : Option GoError := none
  deriving DecidableEq, Repr

/-- Outcome of one pass through a `for` loop body: the loop goes on, or the function returns. -/
inductive Step (α : Type) where
  | continue (s : α)
  | return (err : Option GoError) (s : α)
  deriving DecidableEq, Repr

/-- The state carried by a loop outcome. -/
def Step.state {α : Type} : Step α → α
  | .continue s => s
  | .return _ s => s

/-- The Go function `IsActive`. -/
def IsActive (message : ByteString) : Bool := message.length > 0

/-- The `default` branch of the `select` in `Read`, for what the transport read returned. -/
def ReadIter (sess : Session) (ev : ReadEvent) : Step Session :=
  if sess.SessionType = SESSIONTYPE_WEB then
    match ev.err with
    | some e => .return (some e) sess
    | none =>
      let msg := ev.msg
      if msg.length ≤ 0 then .continue sess
      else if ev.t = TextMessage then
        let sess := { sess with Chans := { sess.Chans with InChan := sess.Chans.InChan ++ [msg] } }
        if (sess.IsGuacd && decide (msg.length > 0) && msg.head? != some 57)
            || (!sess.IsGuacd && IsActive msg) then
          .continue sess.SetIdle
        else .continue sess
      else .continue sess
  else if sess.SessionType = SESSIONTYPE_CLIENT then
    match ev.err with
    | some e => .return (some e) sess
    | none =>
      let sess := { sess with Chans := { sess.Chans with InChan := sess.Chans.InChan ++ [ev.msg] } }
      .continue sess.SetIdle
  else .continue sess

/-- The Go function `Read`, driven by the successive results of the transport read: each
pass first looks at `sess.Gctx.Done()` and `AwayChan`, then takes the `default` branch.
When the results are used up the reader is waiting in its next read. -/
def Read : Session → List ReadEvent → Step Session
  | sess, [] => .continue sess
  | sess, ev :: rest =>
    if sess.GctxDone || decide (sess.Chans.AwayChan.closes > 0) then .return none sess
    else
      match ReadIter sess ev with
      | .continue s => Read s rest
      | .return e s => .return e s

/-! ## Multiplexer input branch (`handlers.go`, lines 405-439) -/

/-- The variable `byteClearAll = []byte("\x15\r")`. -/
def byteClearAll : ByteString := str "\x15\r"

/-- The Go call `strings.Split(s, sep)` for a one-byte separator: the pieces between the
occurrences of `sep` (one empty piece for the empty string). -/
def Split : ByteString → Nat → List ByteString
  | [], _ => [[]]
  | b :: rest, sep =>
    if b = sep then [] :: Split rest sep
    else
      match Split rest sep with
      | [] => [[b]]
      | piece :: pieces => (b :: piece) :: pieces

/-- The behaviour of the terminal parser's `AddInput`, which lives in package `gsession`
outside the embedded files: from the calls made on the parser so far and the new chunk, the
pair `(cmd, forbidden)` it returns. -/
abbrev ParserBehaviour := List ParserCall → ByteString → ByteString × Bool

/-- The Go call `sess.SshParser.AddInput(p)`: its result and the session afterwards. -/
def Session.AddInput (P : ParserBehaviour) (sess : Session) (p : ByteString) :
    (ByteString × Bool) × Session :=
  (P sess.SshParser p, { sess with SshParser := sess.SshParser ++ [.AddInput p] })

/-- Lines 426-434 of `HandleTerm`: the chunk goes through the parser; a forbidden command is
reported on the output path and cancelled on the target, anything else is written to the
target. -/
def forwardInput (P : ParserBehaviour) (sess : Session) (inp : ByteString) : Step Session :=
  let ((cmd, forbidden), sess) := sess.AddInput P inp
  if forbidden then
    let sess := WriteErrMsg sess (cmd ++ str " is forbidden\n")
    let sess := (sess.AddInput P byteClearAll).2
    let sess := { sess with Chans := { sess.Chans with Win := (sess.Chans.Win.Write byteClearAll).2 } }
    .continue sess
  else
    let (err, win) := sess.Chans.Win.Write inp
    let sess := { sess with Chans := { sess.Chans with Win := win } }
    match err with
    | some e => .return (some e) sess
    | none => .continue sess

/-- The branch `case in := <-chs.InChan` of the `HandleTerm` loop.  `ToInt` is `cast.ToInt`
(spf13/cast).  The result is `none` when `in[0]` is evaluated on an empty message (the Go
code panics with an index out of range). -/
def HandleTermInput (P : ParserBehaviour) (ToInt : ByteString → Int) (sess : Session)
    (inp : ByteString) : Option (Step Session) :=
  if sess.SessionType = SESSIONTYPE_WEB then
    match inp with
    | [] => none
    | rt :: msg =>
      if rt = 49 then some (forwardInput P sess msg)
      else if rt = 57 then some (.continue sess)
      else if rt = 119 then
        let wh := Split msg 44
        match wh with
        | w :: h :: _ =>
          some (.continue { sess with Chans := { sess.Chans with
            WindowChan := sess.Chans.WindowChan ++ [{ Width := ToInt w, Height := ToInt h }] } })
        | _ => some (.continue sess)
      else some (forwardInput P sess inp)
  else some (forwardInput P sess inp)

/-- The frame a client sends for a payload chunk: tagged `'1'` on a web session, bare on a
client session. -/
def framed (sess : Session) (payload : ByteString) : ByteString :=
  if sess.SessionType = SESSIONTYPE_WEB then 49 :: payload else payload

/-- The branch `case out := <-chs.OutChan` of the `HandleTerm` loop (`OutBuf.Write` of a
`bytes.Buffer` never fails). -/
def HandleTermOutput (sess : Session) (out : ByteString) : Step Session :=
  .continue { sess with
    Chans := { sess.Chans with OutBuf := sess.Chans.OutBuf ++ out }
    SshParser := sess.SshParser ++ [.AddOutput out] }

/-- The input branch run over successive messages of `InChan`, stopping at the first one on
which the loop returns (or panics). -/
def HandleTermInputs (P : ParserBehaviour) (ToInt : ByteString → Int) :
    Session → List ByteString → Option (Step Session)
  | sess, [] => some (.continue sess)
  | sess, inp :: rest =>
    match HandleTermInput P ToInt sess inp with
    | some (.continue s) => HandleTermInputs P ToInt s rest
    | r => r

/-- Modelled from the spec: the line being typed, as the terminal parser (package `gsession`,
absent from the embedded files) accumulates it: the input bytes since the last CR or Ctrl-U. -/
def typedLine (line : ByteString) : List ParserCall → ByteString
  | [] => line
  | .AddInput p :: rest =>
    typedLine (p.foldl (fun l b => if b = 13 ∨ b = 21 then [] else l ++ [b]) line) rest
  | .AddOutput _ :: rest => typedLine line rest

/-- Modelled from the spec: the command a chunk commits, if any: the line typed up to the
first CR of the chunk. -/
def committedLine (line : ByteString) : ByteString → Option ByteString
  | [] => none
  | b :: rest =>
    if b = 13 then some line
    else if b = 21 then committedLine [] rest
    else committedLine (line ++ [b]) rest

/-- Modelled from the spec: a terminal parser whose `AddInput` returns `forbidden = true`
exactly when the chunk commits a line (CR) that matches a forbidden pattern, and returns
that line as the extracted command. -/
def specParser (isForbidden : ByteString → Bool) : ParserBehaviour := fun calls p =>
  match committedLine (typedLine [] calls) p with
  | some cmd => (cmd, isForbidden cmd)
  | none => ([], false)

/-! ## Connection setup (`handlers.go`, lines 162-339) -/

/-- The constant `model.SESSIONSTATUS_ONLINE`. -/
def SESSIONSTATUS_ONLINE : Int := 1

/-- The actions of `model.AuthAction`. -/
inductive AuthAction where
  | ActionConnect
  | ActionFileUpload
  | ActionFileDownload
  | ActionCopy
  | ActionPaste
  | ActionShare
  deriving DecidableEq, Repr

/-- The connector goroutines `DoConnect` can start with `go`. -/
inductive Connector where
  | ConnectSsh
  | ConnectDB
  | ConnectTelnet
  | ConnectGuacd
  deriving DecidableEq, Repr

/-- The online registry `gsession.GetOnlineSession()`: session id to session. -/
abbrev Registry := List (ByteString × Session)

/-- The Go call `gsession.GetOnlineSession().Store(id, sess)`: the entry of `id` is replaced,
or added when there is none. -/
def Registry.Store (r : Registry) (id : ByteString) (sess : Session) : Registry :=
  (id, sess) :: r.filter (fun kv => kv.1 != id)

/-- The Go call `gsession.GetOnlineSessionById(id)`. -/
def Registry.Load (r : Registry) (id : ByteString) : Option Session :=
  (r.find? (fun kv => kv.1 == id)).map (fun kv => kv.2)

/-- What `DoConnect` obtains from the request and from the collaborators outside the embedded
files.  `GetAAG` is the error of `repository.GetAAG` (none on success); `shareErr` is the
value under the context key `shareErr` when it exists and is not nil; `isGuacd` is the
method `IsGuacd()` as a function of the protocol; `NewAsciinema` is the error of
`gsession.NewAsciinema`; `HasAuthorizationV2` is the gate, from the required actions to an
error or to the result's `IsAllowed`; `connectorSends` is what the started connector sends on
`ErrChan` (none when nothing is ever sent); `errChanAccepts` is whether a send on `ErrChan`
made by `DoConnect` itself completes; `InitSessionFileClient` is the error of the file
service. -/
structure ConnectEnv where
  sessionType : Int
  assetId : Int
  accountId : Int
  GetAAG : Option GoError
  querySessionId : ByteString
  uuid : ByteString
  protocol : ByteString
  shareId : Int
  shareEnd : Int
  shareErr : Option GoError
  isGuacd : ByteString → Bool
  NewAsciinema : Option GoError
  ClientIP : ByteString
  RemoteIP : ByteString
  HasAuthorizationV2 : List AuthAction → Except GoError (AuthAction → Bool)
  connectorSends : Connector → Option (Option GoError)
  errChanAccepts : Bool
  InitSessionFileClient : Option GoError

/-- How a run of `DoConnect` ends: it returns `(sess, err)`, or it waits for ever on
`ErrChan`. -/
inductive Outcome where
  | returned (sess : Option Session) (err : Option GoError)
  | blocked (sess : Session)
  deriving DecidableEq, Repr

/-- A run of `DoConnect`: how it ends, the registry afterwards, the connectors started, the
ids passed to the registry's `Store` and to `gsession.UpsertSession`, and the number of
`InitSessionFileClient` calls. -/
structure ConnectRun where
  outcome : Outcome
  registry : Registry
  started : List Connector := []
  stores : List ByteString := []
  upserts : List ByteString := []
  fileClientInits : Nat := 0
  deriving DecidableEq, Repr

/-- The error `DoConnect` returned, when it returned one. -/
def ConnectRun.err (r : ConnectRun) : Option GoError :=
  match r.outcome with
  | .returned _ e => e
  | .blocked _ => none

/-- Whether `DoConnect` returned with a nil error. -/
def ConnectRun.succeeded (r : ConnectRun) : Bool :=
  match r.outcome with
  | .returned _ none => true
  | _ => false

/-- The session of a run of `DoConnect`: the one it returned, or the one it was setting up
when it began to wait. -/
def ConnectRun.session (r : ConnectRun) : Option Session :=
  match r.outcome with
  | .returned sess _ => sess
  | .blocked sess => some sess

/-- The expression `strings.Split(sess.Protocol, ":")[0]`. -/
def protocolOf (p : ByteString) : ByteString := (Split p 58).headD []

/-- The `requiredActions` slice built at lines 232-245. -/
def requiredActions (protocol : ByteString) : List AuthAction :=
  [AuthAction.ActionConnect]
    ++ (if protocol = str "ssh" then [AuthAction.ActionFileUpload, AuthAction.ActionFileDownload]
        else [])
    ++ (if protocol = str "http" ∨ protocol = str "https" then [AuthAction.ActionFileDownload]
        else [])

/-- The first `switch protocol` (lines 281-297): the connector started for the protocol,
none for `http`, `https` and for an unknown protocol. -/
def connectorFor (protocol : ByteString) : Option Connector :=
  if protocol = str "ssh" then some .ConnectSsh
  else if protocol = str "redis" ∨ protocol = str "mysql" ∨ protocol = str "mongodb"
      ∨ protocol = str "postgresql" then some .ConnectDB
  else if protocol = str "telnet" then some .ConnectTelnet
  else if protocol = str "vnc" ∨ protocol = str "rdp" then some .ConnectGuacd
  else none

/-- Lines 163-228 of `DoConnect`: the session is built from the request; an error ends the
run before the authorization step. -/
def DoConnect.build (env : ConnectEnv) (ws : Option WsConn) : Except (Option Session × GoError) Session :=
  match env.GetAAG with
  | some e => .error (none, e)
  | none =>
    let sessionId := if env.querySessionId = [] then env.uuid else env.querySessionId
    let sess : Session :=
      { Ws := ws
        SessionType := env.sessionType
        SessionId := sessionId
        AssetId := env.assetId
        AccountId := env.accountId
        Protocol := env.protocol
        guacd := env.isGuacd env.protocol
        Status := SESSIONSTATUS_ONLINE
        ShareId := env.shareId }
    let sess := if sess.ShareId ≠ 0 then { sess with ShareEnd := env.shareEnd } else sess
    match (if sess.ShareId ≠ 0 then env.shareErr.filter GoError.isApiError else none) with
    | some apiErr => .error (some sess, apiErr)
    | none =>
      let recorded : Except GoError Session :=
        if !sess.IsGuacd then
          let sess := { sess with SshParser := [] }
          match env.NewAsciinema with
          | some e => .error e
          | none => .ok { sess with SshRecoder := some {} }
        else .ok sess
      match recorded with
      | .error e => .error (some sess, e)
      | .ok sess =>
        let sess :=
          if sess.SessionType = SESSIONTYPE_WEB then { sess with ClientIp := env.ClientIP }
          else if sess.SessionType = SESSIONTYPE_CLIENT then { sess with ClientIp := env.RemoteIP }
          else sess
        .ok sess

/-- Lines 262-273 of `DoConnect`: for `http` and `https` the permission set is stored in the
session. -/
def DoConnect.withPermissions (sess : Session) (IsAllowed : AuthAction → Bool) : Session :=
  let protocol := protocolOf sess.Protocol
  if protocol = str "http" ∨ protocol = str "https" then
    let permissions : AuthPermissions :=
      { Connect := IsAllowed .ActionConnect
        FileDownload := IsAllowed .ActionFileDownload
        Copy := IsAllowed .ActionCopy
        Paste := IsAllowed .ActionPaste
        Share := IsAllowed .ActionShare }
    { sess with Permissions := some permissions }
  else sess

/-- Lines 275-339 of `DoConnect`, after the permissions are set: the connector for the
protocol is started and its report awaited on `ErrChan`; on a nil report the session is
stored in the registry and upserted, and for ssh with a file permission the file client is
initialised (its failure is only logged). -/
def DoConnect.dispatch (env : ConnectEnv) (sess : Session) (IsAllowed : AuthAction → Bool)
    (registry : Registry) : ConnectRun :=
  let protocol := protocolOf sess.Protocol
  let hasFilePermissions :=
    if protocol = str "ssh" then
      IsAllowed .ActionFileUpload || IsAllowed .ActionFileDownload
    else false
  if protocol = str "http" ∨ protocol = str "https" then
    let err : GoError :=
      .api .ErrConnectServer "err" (str "Web assets should use web proxy API")
    if env.errChanAccepts then
      let chs := { sess.Chans with ErrChan := sess.Chans.ErrChan ++ [some err] }
      { outcome := .returned (some { sess with Chans := chs }) (some err)
        registry := registry }
    else { outcome := .blocked sess, registry := registry }
  else
    let started := (connectorFor protocol).toList
    match (connectorFor protocol).bind env.connectorSends with
    | none => { outcome := .blocked sess, registry := registry, started := started }
    | some (some e) =>
      { outcome := .returned (some sess) (some (.apiWrap .ErrConnectServer "err" e))
        registry := registry, started := started }
    | some none =>
      { outcome := .returned (some sess) none
        registry := registry.Store sess.SessionId sess
        started := started
        stores := [sess.SessionId]
        upserts := [sess.SessionId]
        fileClientInits :=
          if protocol = str "ssh" ∧ hasFilePermissions then 1 else 0 }

/-- The Go function `DoConnect`, run on a registry. -/
def DoConnect (env : ConnectEnv) (ws : Option WsConn) (registry : Registry) : ConnectRun :=
  match DoConnect.build env ws with
  | .error (sess, e) => { outcome := .returned sess (some e), registry := registry }
  | .ok sess =>
    match env.HasAuthorizationV2 (requiredActions (protocolOf sess.Protocol)) with
    | .error e =>
      { outcome := .returned (some sess) (some (.apiWrap .ErrInvalidArgument "err" e))
        registry := registry }
    | .ok IsAllowed =>
      if IsAllowed .ActionConnect = false then
        { outcome := .returned (some sess) (some (.api .ErrUnauthorized "perm" (str "connect")))
          registry := registry }
      else DoConnect.dispatch env (DoConnect.withPermissions sess IsAllowed) IsAllowed registry

/-! ## Decoding side of the frame codec -/

/-- The number a string of ASCII digits denotes in base ten. -/
def digitsValue (ds : ByteString) : Nat := ds.foldl (fun acc d => acc * 10 + (d - 48)) 0

/-- A Go `int` result brought back into the 64-bit two's complement range: Go's `int`
arithmetic wraps around on overflow (`int` is 64 bits wide on the platforms oneterm is built
for). -/
def wrapInt (x : Int) : Int :=
  (x + 9223372036854775808) % 18446744073709551616 - 9223372036854775808

/-- The Go expression `(week + 1) % 7` on an `int`: the sum wraps at 64 bits, the remainder
is truncated towards zero and has the sign of the sum. -/
def weekIndex (week : Int) : Int := (wrapInt (week + 1)).tmod 7

/-- One element of `data.Ranges` (package `model`): the fields `Week` (a Go `int`) and `Times`
that `CheckTime` reads. -/
structure Range where
  Week : Int
  Times : List ByteString
  deriving DecidableEq, Repr

/-- The Go type `model.AccessAuth` as `CheckTime` reads it.  `Start` and `End` are optional
instants (nil pointers are `none`). -/
structure AccessAuth where
  Start : Option Int := none
  End : Option Int := none
  Ranges : List Range := []
  Allow : Bool := false
  deriving DecidableEq, Repr

/-- A reading of `time.Now()`: the instant (compared by `Before` and `After`), the value of
`Weekday()` (Sunday is 0), and the hour and minute of the wall clock. -/
structure Clock where
  instant : Int
  Weekday : Nat
  Hour : Nat
  Minute : Nat
  deriving DecidableEq, Repr

/-- A number below one hundred written with two decimal digits. -/
def twoDigits (n : Nat) : ByteString := [48 + n / 10 % 10, 48 + n % 10]

/-- The Go call `now.Format("15:04")`: the wall clock as `HH:MM`. -/
def Clock.Format (now : Clock) : ByteString := twoDigits now.Hour ++ [58] ++ twoDigits now.Minute

/-- The Go comparison `a <= b` of two strings: byte-wise lexicographic order, a proper prefix
being smaller. -/
def strLe : ByteString → ByteString → Bool
  | [], _ => true
  | _ :: _, [] => false
  | a :: as, b :: bs => if a < b then true else if a = b then strLe as bs else false

/-- The expression `len(ss) >= 2 && hm >= ss[0] && hm <= ss[1]` for
`ss := strings.Split(str, "~")`.  The result is `none` when an index expression is evaluated
out of range (the Go code panics). -/
def CheckTime.interval (hm str : ByteString) : Option Bool :=
  let ss := Split str 126
  if ss.length ≥ 2 then
    match ss[0]?, ss[1]? with
    | some lo, some hi => some (strLe lo hm && strLe hm hi)
    | _, _ => none
  else some false

/-- The inner loop of `CheckTime` over `r.Times`: `in = in || (...)`, the right operand being
evaluated only when `in` is false. -/
def CheckTime.times (hm : ByteString) : Bool → List ByteString → Option Bool
  | inside, [] => some inside
  | inside, s :: rest =>
    match (if inside then some true else CheckTime.interval hm s) with
    | none => none
    | some inside => CheckTime.times hm inside rest

/-- The outer loop of `CheckTime` over `data.Ranges`, on the pair `(has, in)`. -/
def CheckTime.ranges (week : Nat) (hm : ByteString) : Bool × Bool → List Range → Option (Bool × Bool)
  | state, [] => some state
  | (has, inside), r :: rest =>
    let has := has || decide (r.Times.length > 0)
    if weekIndex r.Week = (week : Int) then
      match CheckTime.times hm inside r.Times with
      | none => none
      | some inside => CheckTime.ranges week hm (has, inside) rest
    else CheckTime.ranges week hm (has, inside) rest

/-- The Go function `CheckTime`, for the reading `now` of `time.Now()`.  The result is `none`
when the Go code panics. -/
def CheckTime (now : Clock) (data : AccessAuth) : Option Bool :=
  let outside :=
    (match data.Start with
      | some start => decide (now.instant < start)
      | none => false)
    || (match data.End with
      | some stop => decide (now.instant > stop)
      | none => false)
  if outside then some false
  else
    match CheckTime.ranges now.Weekday now.Format (false, false) data.Ranges with
    | none => none
    | some (has, inside) => some (!has || inside == data.Allow)

/-- The branch `case <-tk1m.C` of the `HandleTerm` loop.  `GetById` is what
`assetService.GetById` returns (the asset's `AccessAuth`, or an error), `now` the reading of
`time.Now()` inside `CheckTime`, `later` the instant of the `time.Now()` compared with
`ShareEnd`.  The result is `none` when the Go code panics. -/
def HandleTermAccessTick (sess : Session) (GetById : Except GoError AccessAuth) (now : Clock)
    (later : Int) : Option (Step Session) :=
  match GetById with
  | .error _ => some (.continue sess)
  | .ok accessAuth =>
    match CheckTime now accessAuth with
    | none => none
    | some allowed =>
      if allowed && (decide (sess.ShareId = 0) || decide (later < sess.ShareEnd)) then
        some (.continue sess)
      else some (.return (some (.api .ErrAccessTime "" [])) sess)

/-- The current time lies within the optional date bounds of the policy: not before `Start`,
not after `End`. -/
def AccessAuth.withinBounds (data : AccessAuth) (now : Clock) : Prop :=
  (∀ start, data.Start = some start → ¬ now.instant < start)
  ∧ (∀ stop, data.End = some stop → ¬ now.instant > stop)

/-- The policy has at least one time interval: some range has a non-empty `Times`. -/
def AccessAuth.hasInterval (data : AccessAuth) : Prop :=
  ∃ r ∈ data.Ranges, r.Times ≠ []

/-- A range is for the weekday `week` (Sunday is 0) when `(Week + 1) % 7` equals it, in the
arithmetic of Go's `int` (the sum wraps at 64 bits, the remainder is truncated towards
zero). -/
def Range.appliesOn (r : Range) (week : Nat) : Prop := weekIndex r.Week = (week : Int)

/-- The time `hm` lies in the interval `lo~hi` written by `interval`: the text has at least two
`~`-separated fields and `lo <= hm <= hi` in the order of strings. -/
def lies (hm interval : ByteString) : Prop :=
  ∃ lo hi rest, Split interval 126 = lo :: hi :: rest ∧ strLe lo hm = true ∧ strLe hm hi = true

/-- The current `HH:MM` lies in some interval of a range for the current weekday. -/
def AccessAuth.inSomeInterval (data : AccessAuth) (now : Clock) : Prop :=
  ∃ r ∈ data.Ranges, r.appliesOn now.Weekday ∧ ∃ interval ∈ r.Times, lies now.Format interval

/-! ## Scenarios -/

/-- A web terminal session (ssh) with a healthy websocket and nothing buffered. -/
def webTerminal : Session :=
  { SessionType := SESSIONTYPE_WEB, Protocol := str "ssh", guacd := false, Ws := some {} }

/-- A web guacd session (rdp) with a healthy websocket. -/
def webGuacd : Session :=
  { SessionType := SESSIONTYPE_WEB, Protocol := str "rdp", guacd := true, Ws := some {} }

/-- The parser of scenario 2: the deny rule `rm -rf /`. -/
def denyRmRf : ParserBehaviour := specParser (fun cmd => cmd == str "rm -rf /")

/-- A `cast.ToInt` stand-in for decimal digit strings. -/
def digitsToInt (s : ByteString) : Int := (digitsValue s : Nat)

/-- A web terminal session with `$ ` buffered and one observer websocket stored in its
observer map, as `ConnectMonitor` stores it. -/
def observedTerminal : Session :=
  { webTerminal with
    Chans := { OutBuf := str "$ " }
    Monitors := [(str "1-s1-0", .ws {})] }

/-- A request for an ssh session of asset 7 with account 3 (scenario 1): the gate allows
`connect` and denies the file actions, the connector reports success on `ErrChan`. -/
def sshRequest : ConnectEnv :=
  { sessionType := SESSIONTYPE_WEB
    assetId := 7
    accountId := 3
    GetAAG := none
    querySessionId := str "s1"
    uuid := str "u1"
    protocol := str "ssh"
    shareId := 0
    shareEnd := 0
    shareErr := none
    isGuacd := fun p => decide (protocolOf p = str "rdp" ∨ protocolOf p = str "vnc")
    NewAsciinema := none
    ClientIP := str "10.0.0.1"
    RemoteIP := str "10.0.0.1"
    HasAuthorizationV2 := fun _ => .ok (fun a => decide (a = AuthAction.ActionConnect))
    connectorSends := fun _ => some none
    errChanAccepts := true
    InitSessionFileClient := none }

/-- The session `DoConnect` builds for `sshRequest` before the authorization step. -/
def sshBuilt : Session :=
  { SessionType := SESSIONTYPE_WEB
    SessionId := str "s1"
    Protocol := str "ssh"
    guacd := false
    Status := SESSIONSTATUS_ONLINE
    AssetId := 7
    AccountId := 3
    ClientIp := str "10.0.0.1"
    Ws := some {}
    SshRecoder := some {} }

/-- The ssh request when the connector reports the error `dial refused` on `ErrChan`. -/
def refusedRequest : ConnectEnv :=
  { sshRequest with connectorSends := fun _ => some (some (.plain (str "dial refused"))) }

/-- The same request when the gate denies every action. -/
def deniedRequest : ConnectEnv :=
  { sshRequest with HasAuthorizationV2 := fun _ => .ok (fun _ => false) }

/-- Message renderers that render every error as the empty string. -/
def silent : Messages :=
  { Error := fun _ => [], MessageWithCtx := fun _ => [], MessageBase64 := fun _ => []
    adminCloseCode := [] }

/-- The whitelist policy of scenario 5: access from 09:00 to 18:00 on Mondays (`Week` 0),
no date bounds. -/
def officeHours : AccessAuth :=
  { Allow := true, Ranges := [{ Week := 0, Times := [str "09:00~18:00"] }] }

/-- A whitelist policy whose only range is for Wednesdays (`Week` 2) and carries no
interval. -/
def wednesdayWithoutTimes : AccessAuth :=
  { Allow := true, Ranges := [{ Week := 2, Times := [] }] }

/-- A Monday at the given time of day. -/
def mondayAt (hour minute : Nat) : Clock :=
  { instant := 0, Weekday := 1, Hour := hour, Minute := minute }

/-- The ssh request when the gate allows `connect` and `fileUpload` and denies the rest. -/
def uploadRequest : ConnectEnv :=
  { sshRequest with
    HasAuthorizationV2 := fun _ =>
      .ok (fun a => decide (a = AuthAction.ActionConnect ∨ a = AuthAction.ActionFileUpload)) }

/-- A web guacd session with nothing buffered and a recorder attached. -/
def idleGuacd : Session := { webGuacd with SshRecoder := some {} }

/-! # Theorems -/

/-! ### Facts about the decimal formatting -/

theorem fmtDigits_acc (fuel n : Nat) (acc : ByteString) :
    fmtDigits fuel n acc = fmtDigits fuel n [] ++ acc := by
  induction fuel generalizing n acc with
  | zero => simp [fmtDigits]
  | succ k ih =>
    unfold fmtDigits
    split
    · simp
    · rw [ih (n / 10) ((48 + n % 10) :: acc), ih (n / 10) [48 + n % 10]]
      simp

theorem fmtDigits_fuel (fuel n : Nat) (h : n < fuel) :
    fmtDigits fuel n [] = fmtDigits (n + 1) n [] := by
  induction fuel using Nat.strong_induction_on generalizing n with
  | _ fuel ih =>
    cases fuel with
    | zero => omega
    | succ k =>
      unfold fmtDigits
      split
      · rfl
      · rename_i h10
        have hlt : n / 10 < n := Nat.div_lt_self (by omega) (by omega)
        rw [fmtDigits_acc k, fmtDigits_acc n]
        rw [ih k (by omega) (n / 10) (by omega)]
        cases n with
        | zero => omega
        | succ m =>
          rw [ih (m + 1) (by omega) ((m + 1) / 10) (by omega)]

theorem formatDecimal_small (n : Nat) (h : n < 10) : formatDecimal n = [48 + n] := by
  unfold formatDecimal fmtDigits
  simp [h]

theorem formatDecimal_step (n : Nat) (h : 10 ≤ n) :
    formatDecimal n = formatDecimal (n / 10) ++ [48 + n % 10] := by
  have hlt : n / 10 < n := Nat.div_lt_self (by omega) (by omega)
  unfold formatDecimal
  conv_lhs => unfold fmtDigits
  rw [if_neg (by omega), fmtDigits_acc, fmtDigits_fuel n (n / 10) hlt]

theorem formatDecimal_eq_decimalNumeral (n : Nat) : formatDecimal n = decimalNumeral n := by
  induction n using Nat.strong_induction_on with
  | _ n ih =>
    by_cases h : n < 10
    · rw [formatDecimal_small n h]
      unfold decimalNumeral
      by_cases h0 : n = 0
      · simp [h0]
      · rw [if_neg h0, Nat.digits_of_lt 10 n h0 h]
        simp
    · have h10 : 10 ≤ n := by omega
      have hlt : n / 10 < n := Nat.div_lt_self (by omega) (by omega)
      have hq : n / 10 ≠ 0 := by omega
      rw [formatDecimal_step n h10, ih (n / 10) hlt]
      unfold decimalNumeral
      rw [if_neg hq, if_neg (by omega)]
      conv_rhs => rw [Nat.digits_def' (by omega : 1 < 10) (by omega : 0 < n)]
      simp

theorem foldl_append_eq_join (f : ByteString → ByteString) (init : ByteString)
    (args : List ByteString) :
    args.foldl (fun result arg => result ++ f arg) init = init ++ (args.map f).flatten := by
  induction args generalizing init with
  | nil => simp
  | cons a rest ih => simp [ih, List.append_assoc]

theorem str_comma : str "," = [44] := by decide

theorem str_dot : str "." = [46] := by decide

theorem str_semicolon : str ";" = [59] := by decide

/-- C1: `Instruction.Bytes` of `NewInstruction opcode args` is the opcode, then for each
argument in order a comma, the decimal byte length, a dot and the argument, then one `;`;
an empty argument is encoded as `,0.` and an instruction without arguments is `opcode;`. -/
theorem Instruction_Bytes_format (opcode : ByteString) (args : List ByteString) :
    (NewInstruction opcode args).Bytes = opcode ++ (args.map encodeArg).flatten ++ str ";"
    ∧ encodeArg [] = str ",0."
    ∧ (NewInstruction opcode []).Bytes = opcode ++ str ";" := by
  refine ⟨?_, by decide, by simp [NewInstruction, Instruction.Bytes, str_semicolon]⟩
  have henc : (fun arg : ByteString => [44] ++ formatDecimal arg.length ++ [46] ++ arg)
      = encodeArg := by
    funext arg
    simp [encodeArg, str_comma, str_dot, formatDecimal_eq_decimalNumeral]
  simp only [NewInstruction, Instruction.Bytes, str_semicolon]
  rw [foldl_append_eq_join, henc]

theorem Write_toClient_keeps (s : Session) (out : ByteString) :
    (Write.toClient s out).2.Chans = s.Chans ∧ (Write.toClient s out).2.SshParser = s.SshParser
    ∧ (Write.toClient s out).2.SessionType = s.SessionType
    ∧ (Write.toClient s out).2.SshRecoder = s.SshRecoder
    ∧ (Write.toClient s out).2.Monitors = s.Monitors
    ∧ (Write.toClient s out).2.guacd = s.guacd := by
  unfold Write.toClient
  split_ifs <;> (try split) <;> simp

theorem Write_toRecorder_keeps (s : Session) (out : ByteString) :
    (Write.toRecorder s out).Chans = s.Chans ∧ (Write.toRecorder s out).SshParser = s.SshParser
    ∧ (Write.toRecorder s out).SessionType = s.SessionType
    ∧ (Write.toRecorder s out).Ws = s.Ws
    ∧ (Write.toRecorder s out).CliRw = s.CliRw
    ∧ (Write.toRecorder s out).Monitors = s.Monitors
    ∧ (Write.toRecorder s out).guacd = s.guacd := by
  unfold Write.toRecorder
  split <;> (try split_ifs) <;> simp

theorem Write_keeps (s : Session) :
    (Write s).2.Chans.Win = s.Chans.Win ∧ (Write s).2.SshParser = s.SshParser
    ∧ (Write s).2.SessionType = s.SessionType
    ∧ (Write s).2.Chans.WindowChan = s.Chans.WindowChan
    ∧ (Write s).2.Chans.OutBuf = [] := by
  have h1 := Write_toClient_keeps s s.Chans.OutBuf
  have h2 := Write_toRecorder_keeps (Write.toClient s s.Chans.OutBuf).2 s.Chans.OutBuf
  simp only [Write]
  refine ⟨?_, ?_, ?_, ?_, trivial⟩
  · rw [h2.1, h1.1]
  · rw [h2.2.1, h1.2.1]
  · rw [h2.2.2.1, h1.2.2.1]
  · rw [h2.1, h1.1]

theorem WriteErrMsg_keeps (s : Session) (msg : ByteString) :
    (WriteErrMsg s msg).Chans.Win = s.Chans.Win ∧ (WriteErrMsg s msg).SshParser = s.SshParser
    ∧ (WriteErrMsg s msg).SessionType = s.SessionType
    ∧ (WriteErrMsg s msg).Chans.WindowChan = s.Chans.WindowChan
    ∧ (WriteErrMsg s msg).Chans.OutBuf = [] := by
  unfold WriteErrMsg
  exact Write_keeps _

theorem HandleTermInput_framed (P : ParserBehaviour) (ToInt : ByteString → Int) (sess : Session)
    (payload : ByteString) :
    HandleTermInput P ToInt sess (framed sess payload) = some (forwardInput P sess payload) := by
  unfold HandleTermInput framed
  split_ifs <;> simp

theorem forwardInput_forbidden (P : ParserBehaviour) (sess : Session) (inp : ByteString)
    (h : (P sess.SshParser inp).2 = true) :
    ∃ s, forwardInput P sess inp = .continue s
      ∧ s.Chans.Win.writes = sess.Chans.Win.writes ++ [byteClearAll]
      ∧ s.Chans.Win.writeErr = sess.Chans.Win.writeErr
      ∧ s.SshParser = sess.SshParser ++ [.AddInput inp, .AddInput byteClearAll]
      ∧ s.SessionType = sess.SessionType := by
  unfold forwardInput
  simp only [Session.AddInput, h, if_true]
  refine ⟨_, rfl, ?_, ?_, ?_, ?_⟩
  · simp [Sink.Write, (WriteErrMsg_keeps _ _).1]
  · simp [Sink.Write, (WriteErrMsg_keeps _ _).1]
  · simp [(WriteErrMsg_keeps _ _).2.1]
  · simp [(WriteErrMsg_keeps _ _).2.2.1]

theorem forwardInput_allowed (P : ParserBehaviour) (sess : Session) (inp : ByteString)
    (h : (P sess.SshParser inp).2 = false) (hw : sess.Chans.Win.writeErr = none) :
    ∃ s, forwardInput P sess inp = .continue s
      ∧ s.Chans.Win.writes = sess.Chans.Win.writes ++ [inp]
      ∧ s.Chans.Win.writeErr = none
      ∧ s.SshParser = sess.SshParser ++ [.AddInput inp]
      ∧ s.SessionType = sess.SessionType := by
  unfold forwardInput
  simp only [Session.AddInput, h, Sink.Write, hw]
  exact ⟨_, rfl, rfl, rfl, rfl, rfl⟩

/-- C3 (amended): when the chunks of a line are handled one after the other by the input
branch, the parser does not forbid the earlier chunks and forbids the chunk that commits the
line, then the committing chunk is not written to the target: the target is written the
earlier chunks, which were forwarded as they came, followed by the cancel sequence
`\x15\r`, and the loop continues. -/
theorem forbidden_chunk_withheld (P : ParserBehaviour) (ToInt : ByteString → Int)
    (sess : Session) (chunks : List ByteString) (last : ByteString)
    (hwin : sess.Chans.Win.writeErr = none)
    (hpre : ∀ i (hi : i < chunks.length),
      (P (sess.SshParser ++ (chunks.take i).map ParserCall.AddInput) (chunks.get ⟨i, hi⟩)).2 = false)
    (hlast : (P (sess.SshParser ++ chunks.map ParserCall.AddInput) last).2 = true) :
    ∃ s, HandleTermInputs P ToInt sess ((chunks ++ [last]).map (framed sess)) = some (.continue s)
      ∧ s.Chans.Win.writes = sess.Chans.Win.writes ++ chunks ++ [byteClearAll] := by
  induction chunks generalizing sess with
  | nil =>
    obtain ⟨s, hs, hw, -, -, -⟩ := forwardInput_forbidden P sess last (by simpa using hlast)
    refine ⟨s, ?_, by simpa using hw⟩
    simp [HandleTermInputs, HandleTermInput_framed, hs]
  | cons c cs ih =>
    have h0 := hpre 0 (by simp)
    simp only [List.take_zero, List.map_nil, List.append_nil, List.get_eq_getElem,
      List.getElem_cons_zero] at h0
    obtain ⟨s1, hs1, hw1, he1, hp1, ht1⟩ := forwardInput_allowed P sess c h0 hwin
    have hfr : ∀ x, framed sess x = framed s1 x := by
      intro x; simp [framed, ht1]
    obtain ⟨s, hs, hw⟩ := ih s1 he1
      (by
        intro i hi
        have := hpre (i + 1) (by simpa using hi)
        simpa [hp1] using this)
      (by simpa [hp1] using hlast)
    refine ⟨s, ?_, by simp [hw, hw1]⟩
    simp only [List.cons_append, List.map_cons, HandleTermInputs, HandleTermInput_framed, hs1]
    rw [← hs]
    congr 1
    apply List.map_congr_left
    intro x _
    exact hfr x

/-- Witness of `forbidden_chunk_withheld`: scenario 2 typed as `rm -rf /` then CR. -/
theorem forbidden_chunk_withheld_witness :
    webTerminal.Chans.Win.writeErr = none
    ∧ (denyRmRf (webTerminal.SshParser ++ [str "rm -rf /"].map ParserCall.AddInput) (str "\r")).2
      = true
    ∧ ∃ s, HandleTermInputs denyRmRf digitsToInt webTerminal
          (([str "rm -rf /"] ++ [str "\r"]).map (framed webTerminal)) = some (.continue s)
        ∧ s.Chans.Win.writes
          = webTerminal.Chans.Win.writes ++ [str "rm -rf /"] ++ [byteClearAll] :=
  ⟨by decide, by decide,
    forbidden_chunk_withheld denyRmRf digitsToInt webTerminal [str "rm -rf /"] (str "\r")
      (by decide) (by decide) (by decide)⟩

/-- C3 (as stated) fails: the user types `rm -rf /` and then CR in two messages; the parser
forbids on the CR, and by then the target has been written the bytes `rm -rf /` of the
offending line, before the cancel sequence. -/
theorem forbidden_line_reaches_target :
    denyRmRf [ParserCall.AddInput (str "rm -rf /")] (str "\r") = (str "rm -rf /", true)
    ∧ (HandleTermInputs denyRmRf digitsToInt webTerminal [str "1rm -rf /", str "1\r"]).map
        (fun r => r.state.Chans.Win.writes) = some [str "rm -rf /", str "\x15\r"]
    ∧ [str "rm -rf /", str "\x15\r"] ≠ [str "\x15\r"] := by
  decide

theorem red_line_eq (cmd : ByteString) :
    str "\r\n \x1b[31m " ++ (cmd ++ str " is forbidden\n") ++ str " \x1b[0m"
      = str "\r\n \x1b[31m " ++ cmd ++ str " is forbidden\n \x1b[0m" := by
  have h : str " is forbidden\n" ++ str " \x1b[0m" = str " is forbidden\n \x1b[0m" := by decide
  simp only [List.append_assoc, h]

theorem WriteErrMsg_web (s : Session) (msg : ByteString) (ws : WsConn)
    (hweb : s.SessionType = SESSIONTYPE_WEB) (hws : s.Ws = some ws) :
    (WriteErrMsg s msg).Ws = some { ws with frames := ws.frames ++
      [s.Chans.OutBuf ++ (str "\r\n \x1b[31m " ++ msg ++ str " \x1b[0m")] } := by
  have hne : 0 < (str " \x1b[0m").length := by decide
  simp only [WriteErrMsg, Write]
  rw [(Write_toRecorder_keeps _ _).2.2.2.1]
  unfold Write.toClient
  simp [hweb, hws, WsConn.WriteMessage, hne]

theorem WriteErrMsg_client (s : Session) (msg : ByteString)
    (hcli : s.SessionType = SESSIONTYPE_CLIENT) :
    (WriteErrMsg s msg).CliRw.writes = s.CliRw.writes ++
      [s.Chans.OutBuf ++ (str "\r\n \x1b[31m " ++ msg ++ str " \x1b[0m")] := by
  have hne : 0 < (str " \x1b[0m").length := by decide
  have hty : SESSIONTYPE_CLIENT ≠ SESSIONTYPE_WEB := by decide
  simp only [WriteErrMsg, Write]
  rw [(Write_toRecorder_keeps _ _).2.2.2.2.1]
  unfold Write.toClient
  simp [hcli, hty, Sink.Write, hne]

/-- C4 (amended): for every command `cmd` the parser reports as forbidden, the bytes put on
the output path (via `WriteErrMsg`) are `\r\n \x1b[31m ` + cmd + ` is forbidden\n \x1b[0m`,
with a line feed after `forbidden`; they are appended to `OutBuf` and flushed at once, as one
frame to the websocket of a web session and one write to the stream of a client session. -/
theorem forbidden_message_bytes (P : ParserBehaviour) (sess : Session) (inp cmd : ByteString)
    (hforb : P sess.SshParser inp = (cmd, true)) :
    (∀ ws, sess.SessionType = SESSIONTYPE_WEB → sess.Ws = some ws →
      (forwardInput P sess inp).state.Ws = some { ws with frames := ws.frames ++
        [sess.Chans.OutBuf ++ (str "\r\n \x1b[31m " ++ cmd ++ str " is forbidden\n \x1b[0m")] })
    ∧ (sess.SessionType = SESSIONTYPE_CLIENT →
      (forwardInput P sess inp).state.CliRw.writes = sess.CliRw.writes ++
        [sess.Chans.OutBuf ++ (str "\r\n \x1b[31m " ++ cmd ++ str " is forbidden\n \x1b[0m")]) := by
  constructor
  · intro ws hweb hws
    unfold forwardInput
    simp only [Session.AddInput, hforb, if_true, Step.state]
    rw [← red_line_eq]
    exact WriteErrMsg_web _ _ ws hweb hws
  · intro hcli
    unfold forwardInput
    simp only [Session.AddInput, hforb, if_true, Step.state]
    rw [← red_line_eq]
    exact WriteErrMsg_client _ _ hcli

/-- Witness of `forbidden_message_bytes`: scenario 2, `rm -rf /` and CR in one message. -/
theorem forbidden_message_bytes_witness :
    denyRmRf webTerminal.SshParser (str "rm -rf /\r") = (str "rm -rf /", true)
    ∧ (forwardInput denyRmRf webTerminal (str "rm -rf /\r")).state.Ws
      = some { frames := [str "\r\n \x1b[31m rm -rf / is forbidden\n \x1b[0m"] } :=
  ⟨by decide,
    (forbidden_message_bytes denyRmRf webTerminal (str "rm -rf /\r") (str "rm -rf /")
      (by decide)).1 {} rfl rfl⟩

/-- C4 (as stated) fails: for `rm -rf /` the client is sent the red line with a line feed
after `forbidden`, which is not the byte string of the claim. -/
theorem forbidden_message_has_newline :
    (HandleTermInput denyRmRf digitsToInt webTerminal (str "1rm -rf /\r")).map
        (fun r => r.state.Ws)
      = some (some { frames := [str "\r\n \x1b[31m rm -rf / is forbidden\n \x1b[0m"] })
    ∧ str "\r\n \x1b[31m rm -rf / is forbidden\n \x1b[0m"
      ≠ str "\r\n \x1b[31m " ++ str "rm -rf /" ++ str " is forbidden \x1b[0m" := by
  decide

theorem forwardInput_allowed_state (P : ParserBehaviour) (sess : Session) (inp : ByteString)
    (h : (P sess.SshParser inp).2 = false) :
    (forwardInput P sess inp).state.SshParser = sess.SshParser ++ [.AddInput inp]
    ∧ (forwardInput P sess inp).state.Chans.Win.writes = sess.Chans.Win.writes ++ [inp] := by
  unfold forwardInput
  simp only [Session.AddInput, h, Sink.Write]
  cases sess.Chans.Win.writeErr <;> simp [Step.state]

/-- C5: on a web session, a message tagged `'1'` has exactly the bytes after the tag passed
to the parser and, when not forbidden, written to the target (when forbidden only the cancel
sequence is); a message tagged `'9'` changes nothing; a message tagged `'w'` writes nothing to
the target or the parser and sends one resize event built from the first two comma-separated
fields to `WindowChan`, none when there are fewer than two fields. -/
theorem web_input_demux (P : ParserBehaviour) (ToInt : ByteString → Int) (sess : Session)
    (msg : ByteString) (hweb : sess.SessionType = SESSIONTYPE_WEB) :
    (∃ r, HandleTermInput P ToInt sess (49 :: msg) = some r
      ∧ ((P sess.SshParser msg).2 = false →
          r.state.SshParser = sess.SshParser ++ [.AddInput msg]
          ∧ r.state.Chans.Win.writes = sess.Chans.Win.writes ++ [msg])
      ∧ ((P sess.SshParser msg).2 = true →
          r.state.SshParser = sess.SshParser ++ [.AddInput msg, .AddInput byteClearAll]
          ∧ r.state.Chans.Win.writes = sess.Chans.Win.writes ++ [byteClearAll]))
    ∧ HandleTermInput P ToInt sess (57 :: msg) = some (.continue sess)
    ∧ (∃ s, HandleTermInput P ToInt sess (119 :: msg) = some (.continue s)
      ∧ s.Chans.Win = sess.Chans.Win ∧ s.SshParser = sess.SshParser
      ∧ ((Split msg 44).length < 2 → s.Chans.WindowChan = sess.Chans.WindowChan)
      ∧ (∀ w h rest, Split msg 44 = w :: h :: rest →
          s.Chans.WindowChan
            = sess.Chans.WindowChan ++ [{ Width := ToInt w, Height := ToInt h }])) := by
  refine ⟨⟨forwardInput P sess msg, ?_, ?_, ?_⟩, ?_, ?_⟩
  · simp [HandleTermInput, hweb]
  · intro h
    exact forwardInput_allowed_state P sess msg h
  · intro h
    obtain ⟨s, hs, hw, -, hp, -⟩ := forwardInput_forbidden P sess msg h
    rw [hs]
    exact ⟨hp, hw⟩
  · simp [HandleTermInput, hweb]
  · simp only [HandleTermInput, hweb, if_true]
    rcases hsp : Split msg 44 with _ | ⟨w, _ | ⟨h, rest⟩⟩ <;> simp

/-- Witness of `web_input_demux`: the heartbeat and the resize message `w80,24` on a web
terminal session. -/
theorem web_input_demux_witness :
    webTerminal.SessionType = SESSIONTYPE_WEB
    ∧ HandleTermInput denyRmRf digitsToInt webTerminal (57 :: str "80,24")
      = some (.continue webTerminal)
    ∧ ∃ s, HandleTermInput denyRmRf digitsToInt webTerminal (119 :: str "80,24")
        = some (.continue s)
      ∧ s.Chans.Win = webTerminal.Chans.Win ∧ s.SshParser = webTerminal.SshParser
      ∧ ((Split (str "80,24") 44).length < 2 → s.Chans.WindowChan = webTerminal.Chans.WindowChan)
      ∧ (∀ w h rest, Split (str "80,24") 44 = w :: h :: rest →
          s.Chans.WindowChan = webTerminal.Chans.WindowChan
            ++ [{ Width := digitsToInt w, Height := digitsToInt h }]) :=
  ⟨by decide, (web_input_demux denyRmRf digitsToInt webTerminal (str "80,24") (by decide)).2⟩

theorem ReadIter_terminal_text (sess : Session) (b : Nat) (rest : ByteString)
    (hweb : sess.SessionType = SESSIONTYPE_WEB) (hterm : sess.IsGuacd = false) :
    (ReadIter sess { t := TextMessage, msg := b :: rest }).state.idleResets
      = sess.idleResets + 1 := by
  have hg : sess.guacd = false := hterm
  simp [ReadIter, hweb, Session.IsGuacd, hg, IsActive, Session.SetIdle, Step.state]

/-- C6 (evaluation at the failing input): on a web terminal (non-guacd) session the text
message `9` makes `Read` call `SetIdle` (one idle reset), while on a web guacd session the same
message does not. -/
theorem heartbeat_resets_idle_on_terminal :
    (ReadIter webTerminal { t := TextMessage, msg := str "9" }).state.idleResets
      = webTerminal.idleResets + 1
    ∧ (ReadIter webGuacd { t := TextMessage, msg := str "9" }).state.idleResets
      = webGuacd.idleResets := by
  decide

theorem WriteToMonitors_ws (monitors : List (ByteString × MonitorSink)) (out : ByteString)
    (k : ByteString) (conn : WsConn) (h : (k, MonitorSink.ws conn) ∈ monitors) :
    (k, MonitorSink.ws conn) ∈ WriteToMonitors monitors out := by
  unfold WriteToMonitors
  exact List.mem_map.mpr ⟨(k, .ws conn), h, rfl⟩

/-- C7 (evaluation at the failing input): `Write` on a web terminal session with `$ ` buffered
and one observer websocket in the observer map hands the frame `$ ` to the client and hands
nothing to the observer, whose websocket is left without any frame. -/
theorem websocket_observer_receives_nothing :
    (Write observedTerminal).2.Ws = some { frames := [str "$ "] }
    ∧ (Write observedTerminal).2.Monitors = [(str "1-s1-0", .ws { frames := [] })] := by
  decide

/-- C8 (evaluation at the failing input): a monitor handler attached to a session leaves
first and the session's own `Connect` handler leaves next; the monitor's exit fires the
session's `Once` on the monitor's own `AwayChan`, and the session's `AwayChan` is closed zero
times when the `Connect` handler has left.  In the other order it is closed once. -/
theorem monitor_exit_leaves_away_open :
    (Attached.exits silent { sess := webTerminal, monitors := [({}, NewSessionChans)] }
        [.monitor 0 none, .connect none]).sess.Chans.AwayChan.closes = 0
    ∧ (Attached.exits silent { sess := webTerminal, monitors := [({}, NewSessionChans)] }
        [.monitor 0 none, .connect none]).monitors.map (fun m => m.2.AwayChan.closes) = [1]
    ∧ (Attached.exits silent { sess := webTerminal, monitors := [({}, NewSessionChans)] }
        [.connect none, .monitor 0 none]).sess.Chans.AwayChan.closes = 1 := by
  decide

theorem Registry.Load_Store (r : Registry) (id : ByteString) (sess : Session) :
    (r.Store id sess).Load id = some sess := by
  simp [Registry.Store, Registry.Load]

theorem DoConnect_dispatch_registered (env : ConnectEnv) (sess : Session)
    (IsAllowed : AuthAction → Bool) (registry : Registry) :
    ((DoConnect.dispatch env sess IsAllowed registry).stores ≠ []
      ↔ (DoConnect.dispatch env sess IsAllowed registry).succeeded = true)
    ∧ ((DoConnect.dispatch env sess IsAllowed registry).succeeded = true →
        (DoConnect.dispatch env sess IsAllowed registry).outcome = .returned (some sess) none
          ∧ (DoConnect.dispatch env sess IsAllowed registry).stores = [sess.SessionId]
          ∧ (DoConnect.dispatch env sess IsAllowed registry).registry
            = registry.Store sess.SessionId sess)
    ∧ ((DoConnect.dispatch env sess IsAllowed registry).succeeded = false →
        (DoConnect.dispatch env sess IsAllowed registry).registry = registry
        ∧ (DoConnect.dispatch env sess IsAllowed registry).stores = []) := by
  by_cases hweb : protocolOf sess.Protocol = str "http" ∨ protocolOf sess.Protocol = str "https"
  · by_cases ha : env.errChanAccepts = true <;>
      simp [DoConnect.dispatch, hweb, ha, ConnectRun.succeeded]
  · rcases hc : (connectorFor (protocolOf sess.Protocol)).bind env.connectorSends
      with _ | _ | e <;>
      simp [DoConnect.dispatch, hweb, hc, ConnectRun.succeeded]

theorem DoConnect_dispatch_started (env : ConnectEnv) (sess : Session)
    (IsAllowed : AuthAction → Bool) (registry : Registry) :
    ((DoConnect.dispatch env sess IsAllowed registry).err.bind GoError.code
        ≠ some ErrCode.ErrUnauthorized)
    ∧ (protocolOf sess.Protocol = str "ssh" →
        (DoConnect.dispatch env sess IsAllowed registry).started = [Connector.ConnectSsh]) := by
  have hssh : str "ssh" ≠ str "http" ∧ str "ssh" ≠ str "https" := by decide
  by_cases hweb : protocolOf sess.Protocol = str "http" ∨ protocolOf sess.Protocol = str "https"
  · constructor
    · by_cases ha : env.errChanAccepts = true <;>
        simp [DoConnect.dispatch, hweb, ha, ConnectRun.err, GoError.code]
    · intro h
      rw [h] at hweb
      rcases hweb with h1 | h1
      · exact absurd h1 hssh.1
      · exact absurd h1 hssh.2
  · constructor
    · rcases hc : (connectorFor (protocolOf sess.Protocol)).bind env.connectorSends
        with _ | _ | e <;>
        simp [DoConnect.dispatch, hweb, hc, ConnectRun.err, GoError.code]
    · intro h
      have hcf : connectorFor (protocolOf sess.Protocol) = some .ConnectSsh := by
        simp [connectorFor, h]
      rcases hc : env.connectorSends Connector.ConnectSsh with _ | _ | e <;>
        simp [DoConnect.dispatch, hweb, hc, hcf]

theorem withPermissions_Protocol (sess : Session) (IsAllowed : AuthAction → Bool) :
    (DoConnect.withPermissions sess IsAllowed).Protocol = sess.Protocol := by
  unfold DoConnect.withPermissions
  simp only []
  split_ifs <;> rfl

/-- C10: when a run of `DoConnect` reaches the authorization step and the gate answers with
a result, `DoConnect` returns the `Unauthorized` error on `connect`, with no connector
started, exactly when the result does not allow `connect`; when it allows `connect` the run
does not end with an `Unauthorized` error, and for ssh the ssh connector is started whatever
the result says about `fileUpload` and `fileDownload`. -/
theorem only_connect_denial_aborts (env : ConnectEnv) (ws : Option WsConn)
    (registry : Registry) (sess : Session) (IsAllowed : AuthAction → Bool)
    (hbuild : DoConnect.build env ws = .ok sess)
    (hauth : env.HasAuthorizationV2 (requiredActions (protocolOf sess.Protocol))
      = .ok IsAllowed) :
    (IsAllowed .ActionConnect = false →
      (DoConnect env ws registry).outcome
          = .returned (some sess) (some (.api .ErrUnauthorized "perm" (str "connect")))
        ∧ (DoConnect env ws registry).started = [])
    ∧ (IsAllowed .ActionConnect = true →
      (DoConnect env ws registry).err.bind GoError.code ≠ some ErrCode.ErrUnauthorized
        ∧ (protocolOf sess.Protocol = str "ssh" →
          (DoConnect env ws registry).started = [Connector.ConnectSsh])) := by
  constructor
  · intro hc
    simp [DoConnect, hbuild, hauth, hc]
  · intro hc
    have hD : DoConnect env ws registry
        = DoConnect.dispatch env (DoConnect.withPermissions sess IsAllowed) IsAllowed
          registry := by
      simp [DoConnect, hbuild, hauth, hc]
    rw [hD]
    have := DoConnect_dispatch_started env (DoConnect.withPermissions sess IsAllowed) IsAllowed
      registry
    rw [withPermissions_Protocol] at this
    exact this

/-- Witness of `only_connect_denial_aborts`: the ssh request whose result allows `connect`
and denies both file actions starts the ssh connector; the request denied `connect` returns
the `Unauthorized` error. -/
theorem only_connect_denial_aborts_witness :
    DoConnect.build sshRequest (some {}) = .ok sshBuilt
    ∧ (DoConnect sshRequest (some {}) []).started = [Connector.ConnectSsh]
    ∧ (DoConnect deniedRequest (some {}) []).outcome
      = .returned (some sshBuilt) (some (.api .ErrUnauthorized "perm" (str "connect"))) :=
  ⟨rfl,
    ((only_connect_denial_aborts sshRequest (some {}) [] sshBuilt
      (fun a => decide (a = AuthAction.ActionConnect)) rfl rfl).2 rfl).2 (by decide),
    ((only_connect_denial_aborts deniedRequest (some {}) [] sshBuilt (fun _ => false)
      rfl rfl).1 rfl).1⟩

theorem DoConnect_dispatch_ssh (env : ConnectEnv) (sess : Session)
    (IsAllowed : AuthAction → Bool) (registry : Registry)
    (hssh : protocolOf sess.Protocol = str "ssh") :
    (DoConnect.dispatch env sess IsAllowed registry).session = some sess
    ∧ ((DoConnect.dispatch env sess IsAllowed registry).succeeded = true →
      (DoConnect.dispatch env sess IsAllowed registry).fileClientInits
        = if IsAllowed .ActionFileUpload || IsAllowed .ActionFileDownload then 1 else 0) := by
  have hne : str "ssh" ≠ str "http" ∧ str "ssh" ≠ str "https" := by decide
  have hweb : ¬(protocolOf sess.Protocol = str "http" ∨ protocolOf sess.Protocol = str "https") := by
    rw [hssh]
    exact fun h => h.elim hne.1 hne.2
  have hcf : connectorFor (protocolOf sess.Protocol) = some .ConnectSsh := by
    simp [connectorFor, hssh]
  have hfile : (protocolOf sess.Protocol = str "ssh"
      ∧ (IsAllowed .ActionFileUpload || IsAllowed .ActionFileDownload) = true)
      ↔ (IsAllowed .ActionFileUpload || IsAllowed .ActionFileDownload) = true :=
    ⟨fun h => h.2, fun h => ⟨hssh, h⟩⟩
  rcases hc : env.connectorSends Connector.ConnectSsh with _ | _ | e <;>
    simp only [DoConnect.dispatch, if_neg hweb, hc, hcf, Option.bind, ConnectRun.session,
      ConnectRun.succeeded, if_pos hssh, hfile] <;> simp

theorem withPermissions_ssh (sess : Session) (IsAllowed : AuthAction → Bool)
    (hssh : protocolOf sess.Protocol = str "ssh") :
    DoConnect.withPermissions sess IsAllowed = sess := by
  have hne : str "ssh" ≠ str "http" ∧ str "ssh" ≠ str "https" := by decide
  unfold DoConnect.withPermissions
  simp only [hssh]
  rw [if_neg (fun h => h.elim hne.1 hne.2)]

/-- C11 (amended): for every ssh run of `DoConnect` that passes the authorization step, the
session's permission set is left as it was before that step: the gate's outcomes for
`fileUpload` and `fileDownload` are not stored in it, they only decide whether the session
file client is initialised once the connector has reported success. -/
theorem ssh_file_permissions_only_gate_sftp (env : ConnectEnv) (ws : Option WsConn)
    (registry : Registry) (sess : Session) (IsAllowed : AuthAction → Bool)
    (hbuild : DoConnect.build env ws = .ok sess)
    (hauth : env.HasAuthorizationV2 (requiredActions (protocolOf sess.Protocol))
      = .ok IsAllowed)
    (hconnect : IsAllowed .ActionConnect = true)
    (hssh : protocolOf sess.Protocol = str "ssh") :
    (DoConnect env ws registry).session = some sess
    ∧ (DoConnect env ws registry).session.map (fun s => s.Permissions) = some sess.Permissions
    ∧ ((DoConnect env ws registry).succeeded = true →
      (DoConnect env ws registry).fileClientInits
        = if IsAllowed .ActionFileUpload || IsAllowed .ActionFileDownload then 1 else 0) := by
  have hD : DoConnect env ws registry = DoConnect.dispatch env sess IsAllowed registry := by
    simp [DoConnect, hbuild, hauth, hconnect, withPermissions_ssh sess IsAllowed hssh]
  rw [hD]
  obtain ⟨h1, h2⟩ := DoConnect_dispatch_ssh env sess IsAllowed registry hssh
  exact ⟨h1, by rw [h1]; rfl, h2⟩

/-- Witness of `ssh_file_permissions_only_gate_sftp`: the ssh request whose result allows
`connect` and `fileUpload`. -/
theorem ssh_file_permissions_only_gate_sftp_witness :
    DoConnect.build uploadRequest (some {}) = .ok sshBuilt
    ∧ (DoConnect uploadRequest (some {}) []).session.map (fun s => s.Permissions)
      = some sshBuilt.Permissions
    ∧ sshBuilt.Permissions = none :=
  ⟨rfl,
    (ssh_file_permissions_only_gate_sftp uploadRequest (some {}) [] sshBuilt
      (fun a => decide (a = AuthAction.ActionConnect ∨ a = AuthAction.ActionFileUpload))
      rfl rfl rfl (by decide)).2.1,
    rfl⟩

/-- C11 (as stated) fails: the gate allows `fileUpload` for an ssh request, `DoConnect`
succeeds and initialises the file client, and the returned session has no permission set at
all, so it does not record `FileUpload`. -/
theorem ssh_permissions_not_recorded :
    (uploadRequest.HasAuthorizationV2 (requiredActions (str "ssh"))).toOption.map
        (fun IsAllowed => IsAllowed AuthAction.ActionFileUpload) = some true
    ∧ (DoConnect uploadRequest (some {}) []).succeeded = true
    ∧ (DoConnect uploadRequest (some {}) []).fileClientInits = 1
    ∧ (DoConnect uploadRequest (some {}) []).session.map (fun s => s.Permissions)
      = some none := by
  decide

/-- C12: `Write` on a session with an empty `OutBuf` hands one empty text frame to the
websocket of a web guacd session; it hands nothing to the client of a raw terminal session
(non-guacd, or native client), nothing to the recorder in any case, and `OutBuf` is empty
afterwards. -/
theorem empty_flush (sess : Session) (hempty : sess.Chans.OutBuf = []) :
    (∀ ws, sess.SessionType = SESSIONTYPE_WEB → sess.IsGuacd = true → sess.Ws = some ws →
      (Write sess).2.Ws = some { ws with frames := ws.frames ++ [[]] })
    ∧ ((sess.IsGuacd = false ∨ sess.SessionType = SESSIONTYPE_CLIENT) →
      (Write sess).2.Ws = sess.Ws ∧ (Write sess).2.CliRw = sess.CliRw)
    ∧ (Write sess).2.SshRecoder = sess.SshRecoder
    ∧ (Write sess).2.Chans.OutBuf = [] := by
  have hty : SESSIONTYPE_CLIENT ≠ SESSIONTYPE_WEB := by decide
  have hrec : ∀ s : Session, Write.toRecorder s [] = s := by
    intro s
    unfold Write.toRecorder
    split <;> simp
  simp only [Write, hempty, hrec]
  refine ⟨?_, ?_, ?_, trivial⟩
  · intro ws hweb hg hws
    simp [Write.toClient, hweb, hws, hg, WsConn.WriteMessage]
  · rintro (hg | hc)
    · unfold Write.toClient
      simp [hg]
    · unfold Write.toClient
      simp [hc, hty]
  · exact (Write_toClient_keeps sess []).2.2.2.1

/-- Witness of `empty_flush`: an idle web guacd session with a recorder is sent one empty
frame and its recorder nothing; an idle web terminal session is sent nothing. -/
theorem empty_flush_witness :
    idleGuacd.Chans.OutBuf = []
    ∧ (Write idleGuacd).2.Ws = some { frames := [[]] }
    ∧ (Write idleGuacd).2.SshRecoder = idleGuacd.SshRecoder
    ∧ (Write webTerminal).2.Ws = webTerminal.Ws :=
  ⟨rfl, (empty_flush idleGuacd rfl).1 {} rfl rfl rfl, (empty_flush idleGuacd rfl).2.2.1,
    ((empty_flush webTerminal rfl).2.1 (Or.inl rfl)).1⟩

theorem CheckTime_interval_spec (hm s : ByteString) :
    ∃ b, CheckTime.interval hm s = some b ∧ (b = true ↔ lies hm s) := by
  unfold CheckTime.interval lies
  rcases hs : Split s 126 with _ | ⟨lo, _ | ⟨hi, rest⟩⟩
  · exact ⟨false, by simp, by simp⟩
  · exact ⟨false, by simp, by simp⟩
  · refine ⟨strLe lo hm && strLe hm hi, by simp, ?_⟩
    simp only [Bool.and_eq_true, List.cons.injEq]
    constructor
    · intro h
      exact ⟨lo, hi, rest, ⟨rfl, rfl, rfl⟩, h⟩
    · rintro ⟨lo', hi', rest', ⟨rfl, rfl, -⟩, h⟩
      exact h

theorem CheckTime_times_spec (hm : ByteString) (inside : Bool) (ts : List ByteString) :
    ∃ b, CheckTime.times hm inside ts = some b
      ∧ (b = true ↔ inside = true ∨ ∃ i ∈ ts, lies hm i) := by
  induction ts generalizing inside with
  | nil => exact ⟨inside, rfl, by simp⟩
  | cons s rest ih =>
    unfold CheckTime.times
    cases inside with
    | true =>
      obtain ⟨b, hb, hiff⟩ := ih true
      refine ⟨b, by simpa using hb, ?_⟩
      simp only [hiff, true_or]
    | false =>
      obtain ⟨b0, hb0, hiff0⟩ := CheckTime_interval_spec hm s
      obtain ⟨b, hb, hiff⟩ := ih b0
      refine ⟨b, by simp [hb0, hb], ?_⟩
      rw [hiff, hiff0]
      simp

theorem CheckTime_ranges_spec (week : Nat) (hm : ByteString) (has inside : Bool)
    (rs : List Range) :
    ∃ h b, CheckTime.ranges week hm (has, inside) rs = some (h, b)
      ∧ (h = true ↔ has = true ∨ ∃ r ∈ rs, r.Times ≠ [])
      ∧ (b = true ↔ inside = true ∨ ∃ r ∈ rs, r.appliesOn week ∧ ∃ i ∈ r.Times, lies hm i) := by
  induction rs generalizing has inside with
  | nil => exact ⟨has, inside, rfl, by simp, by simp⟩
  | cons r rest ih =>
    have hlen : decide (r.Times.length > 0) = true ↔ r.Times ≠ [] := by
      cases r.Times <;> simp
    unfold CheckTime.ranges
    by_cases hw : weekIndex r.Week = (week : Int)
    · obtain ⟨b0, hb0, hiff0⟩ := CheckTime_times_spec hm inside r.Times
      obtain ⟨h, b, hr, hh, hb⟩ := ih (has || decide (r.Times.length > 0)) b0
      refine ⟨h, b, by simp [hw, hb0, hr], ?_, ?_⟩
      · rw [hh, Bool.or_eq_true, hlen]
        simp [or_assoc]
      · rw [hb, hiff0]
        simp [Range.appliesOn, hw, or_assoc]
    · obtain ⟨h, b, hr, hh, hb⟩ := ih (has || decide (r.Times.length > 0)) inside
      refine ⟨h, b, by simp [hw, hr], ?_, ?_⟩
      · rw [hh, Bool.or_eq_true, hlen]
        simp [or_assoc]
      · rw [hb]
        simp [Range.appliesOn, hw]

theorem CheckTime_spec (now : Clock) (data : AccessAuth) (hbounds : data.withinBounds now) :
    ∃ has inside, CheckTime now data = some (!has || inside == data.Allow)
      ∧ (has = true ↔ data.hasInterval)
      ∧ (inside = true ↔ data.inSomeInterval now) := by
  obtain ⟨h, b, hr, hh, hb⟩ :=
    CheckTime_ranges_spec now.Weekday now.Format false false data.Ranges
  refine ⟨h, b, ?_, by simpa [AccessAuth.hasInterval] using hh,
    by simpa [AccessAuth.inSomeInterval] using hb⟩
  obtain ⟨hs, he⟩ := hbounds
  unfold CheckTime
  have hout : ((match data.Start with
      | some start => decide (now.instant < start)
      | none => false)
    || (match data.End with
      | some stop => decide (now.instant > stop)
      | none => false)) = false := by
    rcases hS : data.Start with _ | start <;> rcases hE : data.End with _ | stop
    · simp
    · simpa using not_lt.mp (he stop hE)
    · simpa using not_lt.mp (hs start hS)
    · simpa using And.intro (not_lt.mp (hs start hS)) (not_lt.mp (he stop hE))
  simp only [hout, hr]
  simp

theorem CheckTime_isSome (now : Clock) (data : AccessAuth) :
    (CheckTime now data).isSome = true := by
  obtain ⟨h, b, hr, -, -⟩ :=
    CheckTime_ranges_spec now.Weekday now.Format false false data.Ranges
  unfold CheckTime
  simp only [hr]
  split_ifs <;> rfl
/-- C13: for every access policy in which no range carries a time interval and every current
time within the optional date bounds, `CheckTime` returns true, whatever the allow flag. -/
theorem no_interval_permits (now : Clock) (data : AccessAuth)
    (hbounds : data.withinBounds now) (hnone : ∀ r ∈ data.Ranges, r.Times = []) :
    CheckTime now data = some true := by
  obtain ⟨has, inside, hc, hh, -⟩ := CheckTime_spec now data hbounds
  have hf : has = false := by
    cases has with
    | false => rfl
    | true =>
      obtain ⟨r, hr, hne⟩ := hh.mp rfl
      exact absurd (hnone r hr) hne
  rw [hc, hf]
  rfl

/-- Witness of `no_interval_permits`: a blacklist policy whose only range has no interval, on
a Monday at 10:00. -/
theorem no_interval_permits_witness :
    AccessAuth.withinBounds { Allow := false, Ranges := [{ Week := 0, Times := [] }] }
      (mondayAt 10 0)
    ∧ CheckTime (mondayAt 10 0) { Allow := false, Ranges := [{ Week := 0, Times := [] }] }
      = some true :=
  ⟨⟨fun _ h => (nomatch h), fun _ h => (nomatch h)⟩,
    no_interval_permits (mondayAt 10 0) { Allow := false, Ranges := [{ Week := 0, Times := [] }] }
      ⟨fun _ h => (nomatch h), fun _ h => (nomatch h)⟩ (by decide)⟩

/-- C14: for every access policy with at least one time interval and every current time
within the date bounds, `CheckTime` with `Allow = true` is the negation of `CheckTime` with
`Allow = false`, and with `Allow = true` it returns true exactly when the current `HH:MM` lies
in some interval of a range for the current weekday. -/
theorem allow_flag_inverts (now : Clock) (data : AccessAuth)
    (hbounds : data.withinBounds now) (hhas : data.hasInterval) :
    ∃ b, CheckTime now { data with Allow := true } = some b
      ∧ CheckTime now { data with Allow := false } = some (!b)
      ∧ (b = true ↔ data.inSomeInterval now) := by
  obtain ⟨h1, b1, hc1, hh1, hb1⟩ := CheckTime_spec now { data with Allow := true } hbounds
  obtain ⟨h2, b2, hc2, hh2, hb2⟩ := CheckTime_spec now { data with Allow := false } hbounds
  have e1 : h1 = true := hh1.mpr hhas
  have e2 : h2 = true := hh2.mpr hhas
  have hb : b1 = b2 := by
    have : (b1 = true ↔ b2 = true) := hb1.trans hb2.symm
    cases b1 <;> cases b2 <;> simp at this ⊢
  subst e1 e2 hb
  refine ⟨b1, ?_, ?_, hb1⟩
  · rw [hc1]; cases b1 <;> rfl
  · rw [hc2]; cases b1 <;> rfl

/-- Witness of `allow_flag_inverts`: the office-hours policy on a Monday at 10:00. -/
theorem allow_flag_inverts_witness :
    officeHours.withinBounds (mondayAt 10 0) ∧ officeHours.hasInterval
    ∧ ∃ b, CheckTime (mondayAt 10 0) { officeHours with Allow := true } = some b
      ∧ CheckTime (mondayAt 10 0) { officeHours with Allow := false } = some (!b)
      ∧ (b = true ↔ officeHours.inSomeInterval (mondayAt 10 0)) :=
  ⟨⟨fun _ h => (nomatch h), fun _ h => (nomatch h)⟩,
    ⟨_, List.mem_singleton.mpr rfl, by decide⟩,
    allow_flag_inverts (mondayAt 10 0) officeHours
      ⟨fun _ h => (nomatch h), fun _ h => (nomatch h)⟩
      ⟨_, List.mem_singleton.mpr rfl, by decide⟩⟩
theorem Split_without_separator (s : ByteString) (sep : Nat) (h : sep ∉ s) :
    Split s sep = [s] := by
  induction s with
  | nil => rfl
  | cons b rest ih =>
    have hb : b ≠ sep := fun e => h (by simp [e])
    have hr : sep ∉ rest := fun e => h (List.mem_cons_of_mem _ e)
    simp [Split, hb, ih hr]

/-- C18 (amended): within the date bounds, a policy that has at least one interval, all of
its intervals being in ranges for weekdays other than the current one, makes `CheckTime`
return false when `Allow` is true and true when `Allow` is false; a range whose `(Week + 1) % 7` differs from the current weekday
only contributes to `has`; an interval string without `~` does not match; and no run of
`CheckTime` evaluates an index out of range. -/
theorem other_weekday_ranges (now : Clock) (data : AccessAuth)
    (hbounds : data.withinBounds now) (hhas : data.hasInterval)
    (hother : ∀ r ∈ data.Ranges, r.Times ≠ [] → ¬ r.appliesOn now.Weekday) :
    CheckTime now data = some (!data.Allow)
    ∧ (∀ has inside r rest, ¬ r.appliesOn now.Weekday →
        CheckTime.ranges now.Weekday now.Format (has, inside) (r :: rest)
          = CheckTime.ranges now.Weekday now.Format
              (has || decide (r.Times.length > 0), inside) rest)
    ∧ (∀ s, 126 ∉ s → CheckTime.interval now.Format s = some false)
    ∧ (∀ policy : AccessAuth, (CheckTime now policy).isSome = true) := by
  refine ⟨?_, ?_, ?_, fun policy => CheckTime_isSome now policy⟩
  · obtain ⟨has, inside, hc, hh, hi⟩ := CheckTime_spec now data hbounds
    have e1 : has = true := hh.mpr hhas
    have e2 : inside = false := by
      cases inside with
      | false => rfl
      | true =>
        obtain ⟨r, hr, happ, i, hi', -⟩ := hi.mp rfl
        exact absurd happ (hother r hr (List.ne_nil_of_mem hi'))
    rw [hc, e1, e2]
    cases data.Allow <;> rfl
  · intro has inside r rest happ
    have hw : ¬ weekIndex r.Week = (now.Weekday : Int) := happ
    conv_lhs => unfold CheckTime.ranges
    simp [hw]
  · intro s hs
    simp [CheckTime.interval, Split_without_separator s 126 hs]

/-- Witness of `other_weekday_ranges`: the office-hours policy (Mondays) on a Tuesday. -/
theorem other_weekday_ranges_witness :
    officeHours.withinBounds { mondayAt 10 0 with Weekday := 2 } ∧ officeHours.hasInterval
    ∧ CheckTime { mondayAt 10 0 with Weekday := 2 } officeHours = some (!officeHours.Allow) :=
  ⟨⟨fun _ h => (nomatch h), fun _ h => (nomatch h)⟩,
    ⟨_, List.mem_singleton.mpr rfl, by decide⟩,
    (other_weekday_ranges { mondayAt 10 0 with Weekday := 2 } officeHours
      ⟨fun _ h => (nomatch h), fun _ h => (nomatch h)⟩
      ⟨_, List.mem_singleton.mpr rfl, by decide⟩
      (by
        intro r hr _
        rw [List.mem_singleton.mp hr]
        unfold Range.appliesOn
        decide)).1⟩

/-- C16: on a minute tick for which the access policy is reloaded, `CheckTime` returns a
value, and the multiplexer returns the `AccessTime` error when that value is false or when the
session is a share (`ShareId != 0`) whose `ShareEnd` is not after the current time; otherwise
the loop continues with the session unchanged. -/
theorem access_tick_decision (sess : Session) (accessAuth : AccessAuth) (now : Clock)
    (later : Int) :
    ∃ allowed, CheckTime now accessAuth = some allowed
      ∧ ((allowed = false ∨ (sess.ShareId ≠ 0 ∧ ¬ later < sess.ShareEnd)) →
        HandleTermAccessTick sess (.ok accessAuth) now later
          = some (.return (some (.api .ErrAccessTime "" [])) sess))
      ∧ (¬(allowed = false ∨ (sess.ShareId ≠ 0 ∧ ¬ later < sess.ShareEnd)) →
        HandleTermAccessTick sess (.ok accessAuth) now later = some (.continue sess)) := by
  have hsome := CheckTime_isSome now accessAuth
  rcases hc : CheckTime now accessAuth with _ | allowed
  · simp [hc] at hsome
  · refine ⟨allowed, rfl, ?_, ?_⟩
    · intro h
      unfold HandleTermAccessTick
      simp only [hc]
      rw [if_neg]
      rcases h with h | ⟨h1, h2⟩
      · simp [h]
      · simp [h1, h2]
    · intro h
      unfold HandleTermAccessTick
      simp only [hc]
      rw [if_pos]
      simp only [not_or, not_and, not_not] at h
      cases allowed with
      | false => exact absurd rfl h.1
      | true =>
        by_cases h0 : sess.ShareId = 0
        · simp [h0]
        · simp [h.2 h0]

theorem Format_at (now : Clock) (h m : Nat) (hh : now.Hour = h) (hm : now.Minute = m) :
    now.Format = twoDigits h ++ [58] ++ twoDigits m := by
  simp [Clock.Format, hh, hm]

theorem lies_office_hours (hm : ByteString) :
    lies hm (str "09:00~18:00") ↔ strLe (str "09:00") hm = true ∧ strLe hm (str "18:00") = true := by
  have hs : Split (str "09:00~18:00") 126 = [str "09:00", str "18:00"] := by decide
  unfold lies
  rw [hs]
  constructor
  · rintro ⟨lo, hi, rest, heq, h1, h2⟩
    simp only [List.cons.injEq] at heq
    obtain ⟨rfl, rfl, -⟩ := heq
    exact ⟨h1, h2⟩
  · intro h
    exact ⟨_, _, _, rfl, h.1, h.2⟩

/-- C15 (amended): for a whitelist policy without date bounds whose only interval for the
current weekday is `09:00~18:00`, `CheckTime` evaluated when the clock reads 18:00 returns
true, the end of the interval being inclusive, and the access-window tick of a session that
is not a share continues; from 18:01 to 18:59 `CheckTime` returns false and the tick terminates the
session with `AccessTime`. -/
theorem window_end_is_inclusive (data : AccessAuth) (now : Clock) (sess : Session)
    (later : Int) (hallow : data.Allow = true) (hstart : data.Start = none)
    (hend : data.End = none)
    (honly : ∀ r ∈ data.Ranges, r.appliesOn now.Weekday →
      ∀ i ∈ r.Times, i = str "09:00~18:00")
    (hsome : ∃ r ∈ data.Ranges, r.appliesOn now.Weekday ∧ str "09:00~18:00" ∈ r.Times)
    (hhour : now.Hour = 18) (hminute : now.Minute < 60) :
    (now.Minute = 0 →
      CheckTime now data = some true
      ∧ (sess.ShareId = 0 →
        HandleTermAccessTick sess (.ok data) now later = some (.continue sess)))
    ∧ (0 < now.Minute →
      CheckTime now data = some false
      ∧ HandleTermAccessTick sess (.ok data) now later
        = some (.return (some (.api .ErrAccessTime "" [])) sess)) := by
  have hbounds : data.withinBounds now := by
    constructor
    · intro s h; rw [hstart] at h; cases h
    · intro s h; rw [hend] at h; cases h
  obtain ⟨has, inside, hc, hh, hi⟩ := CheckTime_spec now data hbounds
  have e1 : has = true := by
    obtain ⟨r, hr, -, hmem⟩ := hsome
    exact hh.mpr ⟨r, hr, List.ne_nil_of_mem hmem⟩
  have hlies : data.inSomeInterval now ↔ lies now.Format (str "09:00~18:00") := by
    constructor
    · rintro ⟨r, hr, happ, i, hi', hl⟩
      rw [honly r hr happ i hi'] at hl
      exact hl
    · intro hl
      obtain ⟨r, hr, happ, hmem⟩ := hsome
      exact ⟨r, hr, happ, _, hmem, hl⟩
  constructor
  · intro hm0
    have hf : now.Format = str "18:00" := by
      rw [Format_at now 18 0 hhour hm0]
      decide
    have e2 : inside = true := by
      rw [hi, hlies, lies_office_hours, hf]
      decide
    have hct : CheckTime now data = some true := by
      rw [hc, e1, e2, hallow]; rfl
    refine ⟨hct, ?_⟩
    intro hshare
    simp [HandleTermAccessTick, hct, hshare]
  · intro hpos
    have hf : now.Format = [49, 56, 58, 48 + now.Minute / 10 % 10, 48 + now.Minute % 10] := by
      rw [Format_at now 18 now.Minute hhour rfl]
      simp [twoDigits]
    have e2 : inside = false := by
      cases hin : inside with
      | false => rfl
      | true =>
        exfalso
        have hl := (lies_office_hours now.Format).mp (hlies.mp (hi.mp hin))
        have h2 := hl.2
        have h18 : str "18:00" = [49, 56, 58, 48, 48] := by decide
        rw [hf, h18] at h2
        simp [strLe] at h2
        omega
    have hct : CheckTime now data = some false := by
      rw [hc, e1, e2, hallow]; rfl
    refine ⟨hct, ?_⟩
    simp [HandleTermAccessTick, hct]

/-- Witness of `window_end_is_inclusive`: the office-hours policy on a Monday at 18:00 and
at 18:01, for a session that is not a share. -/
theorem window_end_is_inclusive_witness :
    officeHours.Allow = true
    ∧ CheckTime (mondayAt 18 0) officeHours = some true
    ∧ HandleTermAccessTick webTerminal (.ok officeHours) (mondayAt 18 0) 0
      = some (.continue webTerminal)
    ∧ CheckTime (mondayAt 18 1) officeHours = some false :=
  ⟨rfl,
    ((window_end_is_inclusive officeHours (mondayAt 18 0) webTerminal 0 rfl rfl rfl
      (by intro r hr _ i hi
          rw [List.mem_singleton.mp hr] at hi
          exact List.mem_singleton.mp hi)
      ⟨_, List.mem_singleton.mpr rfl, by unfold Range.appliesOn; decide,
        List.mem_singleton.mpr rfl⟩
      rfl (by decide)).1 rfl).1,
    ((window_end_is_inclusive officeHours (mondayAt 18 0) webTerminal 0 rfl rfl rfl
      (by intro r hr _ i hi
          rw [List.mem_singleton.mp hr] at hi
          exact List.mem_singleton.mp hi)
      ⟨_, List.mem_singleton.mpr rfl, by unfold Range.appliesOn; decide,
        List.mem_singleton.mpr rfl⟩
      rfl (by decide)).1 rfl).2 rfl,
    ((window_end_is_inclusive officeHours (mondayAt 18 1) webTerminal 0 rfl rfl rfl
      (by intro r hr _ i hi
          rw [List.mem_singleton.mp hr] at hi
          exact List.mem_singleton.mp hi)
      ⟨_, List.mem_singleton.mpr rfl, by unfold Range.appliesOn; decide,
        List.mem_singleton.mpr rfl⟩
      rfl (by decide)).2 (by decide)).1⟩

/-- C15 (as stated) fails: with the office-hours whitelist `09:00~18:00`, `CheckTime` at
18:00 returns true, not false, and the access-window tick at 18:00 continues instead of
terminating the session. -/
theorem window_open_at_end_minute :
    CheckTime (mondayAt 18 0) officeHours = some true
    ∧ CheckTime (mondayAt 18 0) officeHours ≠ some false
    ∧ HandleTermAccessTick webTerminal (.ok officeHours) (mondayAt 18 0) 0
      = some (.continue webTerminal) := by
  decide

theorem ReadIter_web_nonempty (sess : Session) (ev : ReadEvent)
    (hweb : sess.SessionType = SESSIONTYPE_WEB) (h0 : ∀ m ∈ sess.Chans.InChan, m ≠ []) :
    (ReadIter sess ev).state.SessionType = SESSIONTYPE_WEB
    ∧ ∀ m ∈ (ReadIter sess ev).state.Chans.InChan, m ≠ [] := by
  unfold ReadIter
  rw [if_pos hweb]
  rcases he : ev.err with _ | e
  · by_cases hlen : ev.msg.length ≤ 0
    · simp only [hlen, if_true, Step.state]
      exact ⟨hweb, h0⟩
    · have hne : ev.msg ≠ [] := by
        intro h
        simp [h] at hlen
      simp only [hlen, if_false]
      by_cases ht : ev.t = TextMessage
      · simp only [ht, if_true]
        have hall : ∀ m ∈ sess.Chans.InChan ++ [ev.msg], m ≠ [] := by
          intro m hm
          rcases List.mem_append.mp hm with h | h
          · exact h0 m h
          · rw [List.mem_singleton.mp h]; exact hne
        split_ifs <;> exact ⟨hweb, hall⟩
      · simp only [ht, if_false, Step.state]
        exact ⟨hweb, h0⟩
  · simp only [Step.state]
    exact ⟨hweb, h0⟩

theorem Read_web_nonempty (sess : Session) (events : List ReadEvent)
    (hweb : sess.SessionType = SESSIONTYPE_WEB) (h0 : ∀ m ∈ sess.Chans.InChan, m ≠ []) :
    ∀ m ∈ (Read sess events).state.Chans.InChan, m ≠ [] := by
  induction events generalizing sess with
  | nil => exact h0
  | cons ev rest ih =>
    unfold Read
    split_ifs
    · exact h0
    · have hiter := ReadIter_web_nonempty sess ev hweb h0
      rcases hr : ReadIter sess ev with s | ⟨e, s⟩
      · rw [hr] at hiter
        exact ih s hiter.1 hiter.2
      · rw [hr] at hiter
        exact hiter.2

theorem HandleTermInput_nonempty (P : ParserBehaviour) (ToInt : ByteString → Int)
    (s : Session) (m : ByteString) (hm : m ≠ []) :
    (HandleTermInput P ToInt s m).isSome = true := by
  unfold HandleTermInput
  cases m with
  | nil => exact absurd rfl hm
  | cons rt msg =>
    simp only []
    split_ifs
    · rfl
    · rfl
    · split <;> rfl
    · rfl
    · rfl

/-- C17: for a web session, every message `Read` pushes into `InChan` is non-empty (an empty
websocket message is skipped), so the input branch of `HandleTerm` never evaluates `in[0]` or
`in[1:]` out of range on a message produced by `Read`; on an empty message of a web session
it would. -/
theorem read_messages_index_safe (sess : Session) (events : List ReadEvent)
    (hweb : sess.SessionType = SESSIONTYPE_WEB) (hfresh : sess.Chans.InChan = []) :
    (∀ m ∈ (Read sess events).state.Chans.InChan, m ≠ [])
    ∧ (∀ m ∈ (Read sess events).state.Chans.InChan,
        ∀ (P : ParserBehaviour) (ToInt : ByteString → Int) (s : Session),
          (HandleTermInput P ToInt s m).isSome = true)
    ∧ (∀ (P : ParserBehaviour) (ToInt : ByteString → Int),
        HandleTermInput P ToInt sess [] = none) := by
  have h0 : ∀ m ∈ sess.Chans.InChan, m ≠ [] := by
    intro m hm
    rw [hfresh] at hm
    cases hm
  have hall := Read_web_nonempty sess events hweb h0
  refine ⟨hall, ?_, ?_⟩
  · intro m hm P ToInt s
    exact HandleTermInput_nonempty P ToInt s m (hall m hm)
  · intro P ToInt
    simp [HandleTermInput, hweb]

/-- Witness of `read_messages_index_safe`: a web terminal session whose websocket delivers
`1ls`, an empty message and a heartbeat; only the two non-empty messages reach `InChan`. -/
theorem read_messages_index_safe_witness :
    webTerminal.SessionType = SESSIONTYPE_WEB ∧ webTerminal.Chans.InChan = []
    ∧ (Read webTerminal [{ msg := str "1ls" }, { msg := [] }, { msg := str "9" }]).state.Chans.InChan
      = [str "1ls", str "9"]
    ∧ ∀ m ∈ (Read webTerminal
        [{ msg := str "1ls" }, { msg := [] }, { msg := str "9" }]).state.Chans.InChan, m ≠ [] :=
  ⟨rfl, rfl, by decide,
    (read_messages_index_safe webTerminal [{ msg := str "1ls" }, { msg := [] }, { msg := str "9" }]
      rfl rfl).1⟩

/-- On wall-clock readings `HH:MM` the order of strings is the order of the times of day. -/
theorem strLe_clock_order (h1 m1 h2 m2 : Nat) (hh1 : h1 < 24) (hm1 : m1 < 60)
    (hh2 : h2 < 24) (hm2 : m2 < 60) :
    strLe (twoDigits h1 ++ [58] ++ twoDigits m1) (twoDigits h2 ++ [58] ++ twoDigits m2) = true
      ↔ h1 * 60 + m1 ≤ h2 * 60 + m2 := by
  simp only [twoDigits, List.cons_append, List.nil_append, strLe]
  split_ifs <;> simp <;> omega

/-- C18 (as stated) fails: on a Monday, a whitelist policy whose only range is for
Wednesdays and carries no interval has all its intervals (none) in ranges for other weekdays,
yet the range does not count as "ranges exist" and `CheckTime` returns true, not false. -/
theorem range_without_times_does_not_count :
    wednesdayWithoutTimes.Allow = true
    ∧ wednesdayWithoutTimes.Ranges.map (fun r => (weekIndex r.Week, r.Times)) = [(3, [])]
    ∧ (mondayAt 10 0).Weekday = 1
    ∧ CheckTime (mondayAt 10 0) wednesdayWithoutTimes = some true
    ∧ CheckTime (mondayAt 10 0) wednesdayWithoutTimes ≠ some false := by
  decide

theorem DoConnect_of_build_error (env : ConnectEnv) (ws : Option WsConn) (registry : Registry)
    (s : Option Session) (e : GoError) (h : DoConnect.build env ws = .error (s, e)) :
    DoConnect env ws registry = { outcome := .returned s (some e), registry := registry } := by
  simp [DoConnect, h]

theorem DoConnect_of_gate_error (env : ConnectEnv) (ws : Option WsConn) (registry : Registry)
    (sess : Session) (e : GoError) (hb : DoConnect.build env ws = .ok sess)
    (ha : env.HasAuthorizationV2 (requiredActions (protocolOf sess.Protocol)) = .error e) :
    DoConnect env ws registry
      = { outcome := .returned (some sess) (some (.apiWrap .ErrInvalidArgument "err" e))
          registry := registry } := by
  simp [DoConnect, hb, ha]

theorem DoConnect_of_denied (env : ConnectEnv) (ws : Option WsConn) (registry : Registry)
    (sess : Session) (IsAllowed : AuthAction → Bool) (hb : DoConnect.build env ws = .ok sess)
    (ha : env.HasAuthorizationV2 (requiredActions (protocolOf sess.Protocol)) = .ok IsAllowed)
    (hc : IsAllowed .ActionConnect = false) :
    DoConnect env ws registry
      = { outcome := .returned (some sess) (some (.api .ErrUnauthorized "perm" (str "connect")))
          registry := registry } := by
  simp [DoConnect, hb, ha, hc]

theorem DoConnect_of_allowed (env : ConnectEnv) (ws : Option WsConn) (registry : Registry)
    (sess : Session) (IsAllowed : AuthAction → Bool) (hb : DoConnect.build env ws = .ok sess)
    (ha : env.HasAuthorizationV2 (requiredActions (protocolOf sess.Protocol)) = .ok IsAllowed)
    (hc : IsAllowed .ActionConnect = true) :
    DoConnect env ws registry
      = DoConnect.dispatch env (DoConnect.withPermissions sess IsAllowed) IsAllowed registry := by
  simp [DoConnect, hb, ha, hc]

theorem withPermissions_not_web (sess : Session) (IsAllowed : AuthAction → Bool)
    (hweb : ¬(protocolOf sess.Protocol = str "http" ∨ protocolOf sess.Protocol = str "https")) :
    DoConnect.withPermissions sess IsAllowed = sess := by
  unfold DoConnect.withPermissions
  simp only []
  rw [if_neg hweb]

theorem DoConnect_dispatch_web (env : ConnectEnv) (sess : Session)
    (IsAllowed : AuthAction → Bool) (registry : Registry)
    (hweb : protocolOf sess.Protocol = str "http" ∨ protocolOf sess.Protocol = str "https") :
    (DoConnect.dispatch env sess IsAllowed registry).succeeded = false
    ∧ (DoConnect.dispatch env sess IsAllowed registry).registry = registry
    ∧ (DoConnect.dispatch env sess IsAllowed registry).started = []
    ∧ (env.errChanAccepts = true →
      (DoConnect.dispatch env sess IsAllowed registry).err
        = some (.api .ErrConnectServer "err" (str "Web assets should use web proxy API"))) := by
  by_cases ha : env.errChanAccepts = true <;>
    simp [DoConnect.dispatch, hweb, ha, ConnectRun.succeeded, ConnectRun.err]

theorem DoConnect_dispatch_connector (env : ConnectEnv) (sess : Session)
    (IsAllowed : AuthAction → Bool) (registry : Registry) (c : Connector)
    (hweb : ¬(protocolOf sess.Protocol = str "http" ∨ protocolOf sess.Protocol = str "https"))
    (hc : connectorFor (protocolOf sess.Protocol) = some c) :
    (DoConnect.dispatch env sess IsAllowed registry).started = [c]
    ∧ (env.connectorSends c = none →
      (DoConnect.dispatch env sess IsAllowed registry).outcome = .blocked sess
      ∧ (DoConnect.dispatch env sess IsAllowed registry).registry = registry)
    ∧ (∀ e, env.connectorSends c = some (some e) →
      (DoConnect.dispatch env sess IsAllowed registry).outcome
        = .returned (some sess) (some (.apiWrap .ErrConnectServer "err" e))
      ∧ (DoConnect.dispatch env sess IsAllowed registry).registry = registry)
    ∧ (env.connectorSends c = some none →
      (DoConnect.dispatch env sess IsAllowed registry).outcome = .returned (some sess) none
      ∧ (DoConnect.dispatch env sess IsAllowed registry).registry
        = registry.Store sess.SessionId sess) := by
  rcases hs : env.connectorSends c with _ | _ | e <;>
    simp [DoConnect.dispatch, hweb, hc, hs]

theorem DoConnect_dispatch_no_connector (env : ConnectEnv) (sess : Session)
    (IsAllowed : AuthAction → Bool) (registry : Registry)
    (hweb : ¬(protocolOf sess.Protocol = str "http" ∨ protocolOf sess.Protocol = str "https"))
    (hc : connectorFor (protocolOf sess.Protocol) = none) :
    (DoConnect.dispatch env sess IsAllowed registry).outcome = .blocked sess
    ∧ (DoConnect.dispatch env sess IsAllowed registry).registry = registry
    ∧ (DoConnect.dispatch env sess IsAllowed registry).started = [] := by
  simp [DoConnect.dispatch, hweb, hc]

theorem DoConnect_build_GetAAG (env : ConnectEnv) (ws : Option WsConn) (e : GoError)
    (h : env.GetAAG = some e) : DoConnect.build env ws = .error (none, e) := by
  simp [DoConnect.build, h]

theorem DoConnect_build_share (env : ConnectEnv) (ws : Option WsConn) (e : GoError)
    (h : env.GetAAG = none) (hid : env.shareId ≠ 0) (herr : env.shareErr = some e)
    (hapi : e.isApiError = true) :
    ∃ s, DoConnect.build env ws = .error (some s, e) := by
  simp [DoConnect.build, h, hid, herr, hapi, Option.filter]

theorem DoConnect_build_recorder (env : ConnectEnv) (ws : Option WsConn) (e : GoError)
    (h : env.GetAAG = none)
    (hshare : env.shareId = 0 ∨ ∀ a, env.shareErr = some a → a.isApiError = false)
    (hterm : env.isGuacd env.protocol = false) (hrec : env.NewAsciinema = some e) :
    ∃ s, DoConnect.build env ws = .error (some s, e) := by
  have hfilter : (if env.shareId ≠ 0 then env.shareErr.filter GoError.isApiError else none)
      = none := by
    rcases hshare with h0 | hna
    · simp [h0]
    · rcases hs : env.shareErr with _ | a
      · simp [Option.filter]
      · simp [Option.filter, hna a hs]
  unfold DoConnect.build
  simp only [h]
  by_cases hid : env.shareId = 0
  · simp [hid, Session.IsGuacd, hterm, hrec]
  · have hf2 := hfilter
    simp only [ne_eq, hid, not_false_eq_true, if_true] at hf2
    simp [hid, hf2, Session.IsGuacd, hterm, hrec]

theorem DoConnect_registry_follows_outcome (env : ConnectEnv) (ws : Option WsConn)
    (registry : Registry) :
    ((DoConnect env ws registry).stores ≠ [] ↔ (DoConnect env ws registry).succeeded = true)
    ∧ ((DoConnect env ws registry).succeeded = true →
        ∃ sess, (DoConnect env ws registry).outcome = .returned (some sess) none
          ∧ (DoConnect env ws registry).stores = [sess.SessionId]
          ∧ (DoConnect env ws registry).registry = registry.Store sess.SessionId sess
          ∧ (DoConnect env ws registry).registry.Load sess.SessionId = some sess)
    ∧ ((DoConnect env ws registry).succeeded = false →
        (DoConnect env ws registry).registry = registry
        ∧ (DoConnect env ws registry).stores = []) := by
  rcases hb : DoConnect.build env ws with ⟨sess, e⟩ | sess
  · simp [DoConnect, hb, ConnectRun.succeeded]
  · rcases ha : env.HasAuthorizationV2 (requiredActions (protocolOf sess.Protocol))
      with e | IsAllowed
    · simp [DoConnect, hb, ha, ConnectRun.succeeded]
    · by_cases hc : IsAllowed .ActionConnect = false
      · simp [DoConnect, hb, ha, hc, ConnectRun.succeeded]
      · have hD : DoConnect env ws registry
            = DoConnect.dispatch env (DoConnect.withPermissions sess IsAllowed) IsAllowed
              registry := by
          simp [DoConnect, hb, ha, hc]
        rw [hD]
        obtain ⟨h1, h2, h3⟩ := DoConnect_dispatch_registered env
          (DoConnect.withPermissions sess IsAllowed) IsAllowed registry
        refine ⟨h1, ?_, h3⟩
        intro hs
        obtain ⟨ho, hst, hr⟩ := h2 hs
        exact ⟨_, ho, hst, hr, by rw [hr]; exact Registry.Load_Store _ _ _⟩

theorem DoConnect_succeeded_iff (env : ConnectEnv) (ws : Option WsConn)
    (registry : Registry) :
    (DoConnect env ws registry).succeeded = true ↔
      ∃ sess IsAllowed c, DoConnect.build env ws = .ok sess
        ∧ env.HasAuthorizationV2 (requiredActions (protocolOf sess.Protocol)) = .ok IsAllowed
        ∧ IsAllowed .ActionConnect = true
        ∧ ¬(protocolOf sess.Protocol = str "http" ∨ protocolOf sess.Protocol = str "https")
        ∧ connectorFor (protocolOf sess.Protocol) = some c
        ∧ env.connectorSends c = some none := by
  constructor
  · intro hs
    rcases hb : DoConnect.build env ws with ⟨s, e⟩ | sess
    · rw [DoConnect_of_build_error env ws registry s e hb] at hs
      simp [ConnectRun.succeeded] at hs
    · rcases ha : env.HasAuthorizationV2 (requiredActions (protocolOf sess.Protocol))
        with e | IsAllowed
      · rw [DoConnect_of_gate_error env ws registry sess e hb ha] at hs
        simp [ConnectRun.succeeded] at hs
      · rcases hc : IsAllowed .ActionConnect with _ | _
        · rw [DoConnect_of_denied env ws registry sess IsAllowed hb ha hc] at hs
          simp [ConnectRun.succeeded] at hs
        · rw [DoConnect_of_allowed env ws registry sess IsAllowed hb ha hc] at hs
          have hp := withPermissions_Protocol sess IsAllowed
          by_cases hweb : protocolOf sess.Protocol = str "http"
              ∨ protocolOf sess.Protocol = str "https"
          · have := (DoConnect_dispatch_web env (DoConnect.withPermissions sess IsAllowed)
              IsAllowed registry (by rw [hp]; exact hweb)).1
            rw [this] at hs
            cases hs
          · rw [withPermissions_not_web sess IsAllowed hweb] at hs
            rcases hcf : connectorFor (protocolOf sess.Protocol) with _ | c
            · have := (DoConnect_dispatch_no_connector env sess IsAllowed registry hweb hcf).1
              simp [ConnectRun.succeeded, this] at hs
            · obtain ⟨-, hnone, herr, -⟩ :=
                DoConnect_dispatch_connector env sess IsAllowed registry c hweb hcf
              rcases hsend : env.connectorSends c with _ | _ | e
              · simp [ConnectRun.succeeded, (hnone hsend).1] at hs
              · exact ⟨sess, IsAllowed, c, rfl, ha, hc, hweb, hcf, hsend⟩
              · simp [ConnectRun.succeeded, (herr e hsend).1] at hs
  · rintro ⟨sess, IsAllowed, c, hb, ha, hc, hweb, hcf, hsend⟩
    rw [DoConnect_of_allowed env ws registry sess IsAllowed hb ha hc,
      withPermissions_not_web sess IsAllowed hweb]
    obtain ⟨-, -, -, hok⟩ := DoConnect_dispatch_connector env sess IsAllowed registry c hweb hcf
    simp [ConnectRun.succeeded, (hok hsend).1]

/-- C9: for every run of `DoConnect`, the registry's `Store` is called exactly when
`DoConnect` returns a nil error, which happens exactly when the session is built, the gate
allows `connect`, the protocol is not `http`/`https` and the started connector sends nil on
`ErrChan`; then the returned session is stored under its id.  On every error return (asset or
account lookup failure, share error, recorder creation failure, authorization evaluation
error, connect denied, `http`/`https`, connector error received on `ErrChan`) the error is
returned and the registry is unchanged, as it is on a run that never returns. -/
theorem session_registered_iff_success (env : ConnectEnv) (ws : Option WsConn)
    (registry : Registry) :
    ((DoConnect env ws registry).stores ≠ [] ↔ (DoConnect env ws registry).succeeded = true)
    ∧ ((DoConnect env ws registry).succeeded = true →
        ∃ sess, (DoConnect env ws registry).outcome = .returned (some sess) none
          ∧ (DoConnect env ws registry).stores = [sess.SessionId]
          ∧ (DoConnect env ws registry).registry = registry.Store sess.SessionId sess
          ∧ (DoConnect env ws registry).registry.Load sess.SessionId = some sess)
    ∧ ((DoConnect env ws registry).succeeded = false →
        (DoConnect env ws registry).registry = registry
        ∧ (DoConnect env ws registry).stores = [])
    ∧ ((DoConnect env ws registry).succeeded = true ↔
        ∃ sess IsAllowed c, DoConnect.build env ws = .ok sess
          ∧ env.HasAuthorizationV2 (requiredActions (protocolOf sess.Protocol)) = .ok IsAllowed
          ∧ IsAllowed .ActionConnect = true
          ∧ ¬(protocolOf sess.Protocol = str "http" ∨ protocolOf sess.Protocol = str "https")
          ∧ connectorFor (protocolOf sess.Protocol) = some c
          ∧ env.connectorSends c = some none)
    ∧ (∀ e, env.GetAAG = some e →
        (DoConnect env ws registry).outcome = .returned none (some e)
        ∧ (DoConnect env ws registry).registry = registry)
    ∧ (∀ e, env.GetAAG = none → env.shareId ≠ 0 → env.shareErr = some e →
        e.isApiError = true →
        (DoConnect env ws registry).err = some e
        ∧ (DoConnect env ws registry).registry = registry)
    ∧ (∀ e, env.GetAAG = none →
        (env.shareId = 0 ∨ ∀ a, env.shareErr = some a → a.isApiError = false) →
        env.isGuacd env.protocol = false → env.NewAsciinema = some e →
        (DoConnect env ws registry).err = some e
        ∧ (DoConnect env ws registry).registry = registry)
    ∧ (∀ sess e, DoConnect.build env ws = .ok sess →
        env.HasAuthorizationV2 (requiredActions (protocolOf sess.Protocol)) = .error e →
        (DoConnect env ws registry).outcome
          = .returned (some sess) (some (.apiWrap .ErrInvalidArgument "err" e))
        ∧ (DoConnect env ws registry).registry = registry)
    ∧ (∀ sess IsAllowed, DoConnect.build env ws = .ok sess →
        env.HasAuthorizationV2 (requiredActions (protocolOf sess.Protocol)) = .ok IsAllowed →
        IsAllowed .ActionConnect = false →
        (DoConnect env ws registry).outcome
          = .returned (some sess) (some (.api .ErrUnauthorized "perm" (str "connect")))
        ∧ (DoConnect env ws registry).registry = registry)
    ∧ (∀ sess IsAllowed, DoConnect.build env ws = .ok sess →
        env.HasAuthorizationV2 (requiredActions (protocolOf sess.Protocol)) = .ok IsAllowed →
        IsAllowed .ActionConnect = true →
        (protocolOf sess.Protocol = str "http" ∨ protocolOf sess.Protocol = str "https") →
        (DoConnect env ws registry).succeeded = false
        ∧ (DoConnect env ws registry).registry = registry
        ∧ (env.errChanAccepts = true →
          (DoConnect env ws registry).err
            = some (.api .ErrConnectServer "err" (str "Web assets should use web proxy API"))))
    ∧ (∀ sess IsAllowed c e, DoConnect.build env ws = .ok sess →
        env.HasAuthorizationV2 (requiredActions (protocolOf sess.Protocol)) = .ok IsAllowed →
        IsAllowed .ActionConnect = true →
        ¬(protocolOf sess.Protocol = str "http" ∨ protocolOf sess.Protocol = str "https") →
        connectorFor (protocolOf sess.Protocol) = some c →
        env.connectorSends c = some (some e) →
        (DoConnect env ws registry).outcome
          = .returned (some sess) (some (.apiWrap .ErrConnectServer "err" e))
        ∧ (DoConnect env ws registry).registry = registry) := by
  obtain ⟨h1, h2, h3⟩ := DoConnect_registry_follows_outcome env ws registry
  refine ⟨h1, h2, h3, DoConnect_succeeded_iff env ws registry, ?_, ?_, ?_, ?_, ?_, ?_, ?_⟩
  · intro e he
    rw [DoConnect_of_build_error env ws registry none e (DoConnect_build_GetAAG env ws e he)]
    exact ⟨rfl, rfl⟩
  · intro e he hid herr hapi
    obtain ⟨s, hs⟩ := DoConnect_build_share env ws e he hid herr hapi
    rw [DoConnect_of_build_error env ws registry (some s) e hs]
    exact ⟨rfl, rfl⟩
  · intro e he hshare hterm hrec
    obtain ⟨s, hs⟩ := DoConnect_build_recorder env ws e he hshare hterm hrec
    rw [DoConnect_of_build_error env ws registry (some s) e hs]
    exact ⟨rfl, rfl⟩
  · intro sess e hb ha
    rw [DoConnect_of_gate_error env ws registry sess e hb ha]
    exact ⟨rfl, rfl⟩
  · intro sess IsAllowed hb ha hc
    rw [DoConnect_of_denied env ws registry sess IsAllowed hb ha hc]
    exact ⟨rfl, rfl⟩
  · intro sess IsAllowed hb ha hc hweb
    rw [DoConnect_of_allowed env ws registry sess IsAllowed hb ha hc]
    have hw := DoConnect_dispatch_web env (DoConnect.withPermissions sess IsAllowed)
      IsAllowed registry (by rw [withPermissions_Protocol]; exact hweb)
    exact ⟨hw.1, hw.2.1, hw.2.2.2⟩
  · intro sess IsAllowed c e hb ha hc hweb hcf hsend
    rw [DoConnect_of_allowed env ws registry sess IsAllowed hb ha hc,
      withPermissions_not_web sess IsAllowed hweb]
    exact (DoConnect_dispatch_connector env sess IsAllowed registry c hweb hcf).2.2.1 e hsend

/-- Witness of `session_registered_iff_success`: the ssh request succeeds and is stored
under its id `s1`; the denied request and the request whose connector reports
`dial refused` leave the registry empty. -/
theorem session_registered_iff_success_witness :
    (DoConnect sshRequest (some {}) []).succeeded = true
    ∧ (DoConnect sshRequest (some {}) []).stores ≠ []
    ∧ (DoConnect deniedRequest (some {}) []).succeeded = false
    ∧ (DoConnect deniedRequest (some {}) []).registry = []
    ∧ (DoConnect refusedRequest (some {}) []).outcome
      = .returned (some sshBuilt)
          (some (.apiWrap .ErrConnectServer "err" (.plain (str "dial refused"))))
    ∧ (DoConnect refusedRequest (some {}) []).registry = [] :=
  ⟨by decide,
    (session_registered_iff_success sshRequest (some {}) []).1.mpr (by decide),
    by decide,
    ((session_registered_iff_success deniedRequest (some {}) []).2.2.1 (by decide)).1,
    ((session_registered_iff_success refusedRequest (some {}) []).2.2.2.2.2.2.2.2.2.2
      sshBuilt (fun a => decide (a = AuthAction.ActionConnect)) Connector.ConnectSsh
      (.plain (str "dial refused")) rfl rfl rfl (by decide) (by decide) rfl).1,
    ((session_registered_iff_success refusedRequest (some {}) []).2.2.2.2.2.2.2.2.2.2
      sshBuilt (fun a => decide (a = AuthAction.ActionConnect)) Connector.ConnectSsh
      (.plain (str "dial refused")) rfl rfl rfl (by decide) (by decide) rfl).2⟩

theorem wrapInt_in_range (x : Int) (hlo : -9223372036854775808 ≤ x)
    (hhi : x < 9223372036854775808) : wrapInt x = x := by
  unfold wrapInt
  omega

/-- For a week number whose successor does not overflow, `weekIndex` is the plain truncated
remainder of `Week + 1`. -/
theorem weekIndex_in_range (w : Int) (hlo : -9223372036854775809 ≤ w)
    (hhi : w < 9223372036854775807) : weekIndex w = (w + 1).tmod 7 := by
  unfold weekIndex
  rw [wrapInt_in_range (w + 1) (by omega) (by omega)]

/-- At the largest `int` the sum `Week + 1` wraps to the smallest one and the remainder is
`-1`: such a range is for no weekday, and a whitelist policy made of it denies a Monday at
10:00. -/
theorem weekIndex_wraps_at_max :
    weekIndex 9223372036854775807 = -1
    ∧ CheckTime (mondayAt 10 0)
        { Allow := true
          Ranges := [{ Week := 9223372036854775807, Times := [str "09:00~18:00"] }] }
      = some false := by
  decide

end Oneterm
